import Mathlib

/-!
Verification development for the evaai-backend natural-language action
dispatcher. JavaScript source files are shallowly embedded as Lean
functions: Mongo collections become explicit lists threaded through the
handlers, `Date` values become integer millisecond timestamps, and the
behaviour of runtime library calls (`new Date(string)`, `parseInt`,
regular-expression matching, `mongoose.Types.ObjectId.isValid`) is
abstracted into an environment record `JsEnv` of pure functions, so
every theorem quantifies over those runtime behaviours.
-/

namespace EvaAI

/-- Milliseconds in a day, matching date-fns `addDays` arithmetic. -/
def dayMs : Int := 86400000

/-- Milliseconds in an hour, matching date-fns `addHours` arithmetic. -/
def hourMs : Int := 3600000

/-- date-fns `addDays(date, n)` on millisecond timestamps. -/
def addDaysMs (d : Int) (n : Int) : Int := d + n * dayMs

/-- JS truthiness of an optional string parameter: `undefined`, `null`
and the empty string are falsy. -/
def oStrFalsy : Option String → Bool
  | none => true
  | some s => s = ""

/-- Whitespace for the purpose of JS `String.prototype.trim`. -/
def isJsSpace (c : Char) : Bool := c == ' ' || c == '\t' || c == '\n' || c == '\r'

/-- JS `String.prototype.trim`, written over the character list so it
evaluates inside the kernel. -/
def jsTrim (s : String) : String :=
  ⟨((s.data.dropWhile isJsSpace).reverse.dropWhile isJsSpace).reverse⟩

/-- ASCII lower-casing of one character. -/
def lowerChar (c : Char) : Char :=
  if 65 ≤ c.toNat && c.toNat ≤ 90 then Char.ofNat (c.toNat + 32) else c

/-- JS `String.prototype.toLowerCase` (ASCII fragment), written over the
character list so it evaluates inside the kernel. -/
def jsLower (s : String) : String := ⟨s.data.map lowerChar⟩

/-- Missing-parameter test used by `validateParams` in taskActions.js and
invoiceActions.js: the field is missing when it is `undefined`/`null` or a
string that trims to empty. -/
def oStrBlank : Option String → Bool
  | none => true
  | some s => jsTrim s = ""

/-- JS truthiness of an optional boolean parameter. -/
def oBoolTruthy : Option Bool → Bool
  | none => false
  | some b => b

/-- Does the second character list start with the first? -/
def startsWithCL : List Char → List Char → Bool
  | [], _ => true
  | _ :: _, [] => false
  | a :: as, b :: bs => a == b && startsWithCL as bs

/-- Does the character list contain `sub` as a contiguous sublist? -/
def hasSubCL (sub : List Char) : List Char → Bool
  | [] => startsWithCL sub []
  | b :: bs => startsWithCL sub (b :: bs) || hasSubCL sub bs

/-- JS `String.prototype.includes`: substring containment, written over
the character lists so it evaluates inside the kernel. -/
def jsIncludes (s sub : String) : Bool := hasSubCL sub.data s.data

/-- Value of a JS expression that is either `null`, a valid `Date`, or an
Invalid Date (`getTime()` is `NaN`). -/
inductive JsDateVal where
  | nullv
  | datev (ms : Int)
  | invalid
  deriving Repr, DecidableEq

/-- date-fns `isValid`: true only for a valid `Date`. -/
def JsDateVal.isValidDate : JsDateVal → Bool
  | .datev _ => true
  | _ => false

/-- Pure models of the JS runtime library calls the handlers make.
`jsDate s` models `new Date(s)` (`none` = Invalid Date), `jsParseIntH`
models `parseInt` (`none` = `NaN`), `amountMatch` models the amount
regex match plus `parseFloat` in `findInvoice`, `emailMatch` models the
RFC-approximate email regex in `extractEmailFromContext`, and
`isObjectId` models `mongoose.Types.ObjectId.isValid`. -/
structure JsEnv where
  isObjectId : String → Bool
  jsDate : String → Option Int
  jsParseIntH : String → Option Int
  amountMatch : String → Option Int
  emailMatch : String → Option String

/-- One entry of an invoice `items` array. -/
structure LineItem where
  description : Option String := none
  quantity : Option Int := none
  unitAmount : Option Int := none
  amount : Option Int := none
  deriving Repr, DecidableEq

/-- The single untyped `params` object handed to every handler. `none`
models an absent (or `null`) JSON field; `endTime` keeps the source's
three-way distinction between absent, explicit `null`, and a string. -/
structure Params where
  title : Option String := none
  description : Option String := none
  taskId : Option String := none
  eventId : Option String := none
  invoiceId : Option String := none
  clientName : Option String := none
  email : Option String := none
  sendEmail : Option String := none
  amount : Option Int := none
  dueDate : Option String := none
  date : Option String := none
  startTime : Option String := none
  endTime : Option (Option String) := none
  location : Option String := none
  priority : Option String := none
  status : Option String := none
  completed : Option Bool := none
  allowPastDue : Option Bool := none
  tags : Option (List String) := none
  projectId : Option String := none
  invoiceNumber : Option String := none
  items : Option (List LineItem) := none
  tasks : Option (List String) := none
  taxRate : Option Int := none
  deriving Repr, DecidableEq

/-- Per-field missing test, reading a `Params` field by its string name
the way `providedParams[field]` does; unknown names read `undefined`. -/
def paramBlank (p : Params) : String → Bool
  | "title" => oStrBlank p.title
  | "taskId" => oStrBlank p.taskId
  | "eventId" => oStrBlank p.eventId
  | "invoiceId" => oStrBlank p.invoiceId
  | "clientName" => oStrBlank p.clientName
  | "email" => oStrBlank p.email
  | "startTime" => oStrBlank p.startTime
  | "amount" => p.amount.isNone
  | _ => true

/-- validateParams of taskActions.js / invoiceActions.js: the required
fields that are missing (undefined, null, or blank string). -/
def validateParamsTI (req : List String) (p : Params) : List String :=
  req.filter (paramBlank p)

/-! ## Task domain (taskActions.js, models/Task.js) -/

/-- A stored Task document (models/Task.js). -/
structure Task where
  id : String
  user : String
  title : String
  description : String := ""
  completed : Bool := false
  completedAt : Option Int := none
  dueDate : Option Int := none
  priority : String := "Medium"
  status : String := "Not Started"
  tags : List String := []
  project : Option String := none
  deriving Repr, DecidableEq

/-- The `status` enum of models/Task.js. -/
def taskStatusEnum : List String := ["Not Started", "In Progress", "Completed", "On Hold"]

/-- findTask of taskActions.js: lookup by id when the identifier is a
well-formed ObjectId, else case-insensitive exact-title match (the
anchored regex is modelled as lower-case equality), always scoped to the
user. -/
def findTask (env : JsEnv) (store : List Task) (userId : String)
    (identifier : Option String) : Option Task :=
  match identifier with
  | none => none
  | some ident =>
    if ident = "" then none
    else if env.isObjectId ident then
      store.find? (fun t => t.id == ident && t.user == userId)
    else
      store.find? (fun t => jsLower t.title == jsLower ident && t.user == userId)

/-- parseDateInput of taskActions.js. Falsy input gives `null`; then the
`new Date(input)` parse; then the keyword table; otherwise the supplied
default date. Call sites always pass a valid default, so the function is
written with an `Int` default. (The `input instanceof Date` branch cannot
trigger for JSON-decoded params and is omitted.) -/
def parseDateInput (env : JsEnv) (now : Int) (input : Option String)
    (defaultDate : Int) : JsDateVal :=
  match input with
  | none => .nullv
  | some s =>
    if s = "" then .nullv
    else
      match env.jsDate s with
      | some d => .datev d
      | none =>
        if jsTrim (jsLower s) = "today" then .datev now
        else if jsTrim (jsLower s) = "tomorrow" then .datev (addDaysMs now 1)
        else if jsTrim (jsLower s) = "yesterday" then .datev (addDaysMs now (-1))
        else if jsTrim (jsLower s) = "next week" then .datev (addDaysMs now 7)
        else if jsTrim (jsLower s) = "next month" then .datev (addDaysMs now 30)
        else .datev defaultDate

/-- Required-field table of handleTaskAction; `requiredFields[a] || []`
yields the empty list for unknown actions. -/
def taskRequiredFields : String → List String
  | "create_task" => ["title"]
  | "update_task" => ["taskId"]
  | "complete_task" => ["taskId"]
  | "uncomplete_task" => ["taskId"]
  | "reopen_task" => ["taskId"]
  | "fetch_tasks" => []
  | _ => []

/-- Result envelope of handleTaskAction. The handler catches every throw
itself, so it always returns an envelope; throw sites below are noted in
comments and surfaced as `success := false` with the error message. -/
structure TaskEnvelope where
  success : Bool
  data : Option Task := none
  tasks : Option (List Task) := none
  missingFields : List String := []
  error : Option String := none
  deriving Repr, DecidableEq

/-- The `params.status || 'Not Started'` computation of create_task. -/
def statusOrDefault : Option String → String
  | some s => if s = "" then "Not Started" else s
  | none => "Not Started"

/-- The `['Low','Medium','High'].includes(params.priority) ? ... : 'Medium'`
computation shared by create_task and update_task. -/
def priorityOrDefault : Option String → String
  | some s => if ["Low", "Medium", "High"].contains s then s else "Medium"
  | none => "Medium"

/-- Task.create of create_task: builds the document and runs the schema
validation of models/Task.js (trimmed required title, `status` enum;
`priority` is valid by construction; an invalid `Date` would fail the
Date cast). Mongoose validation failures throw, surfaced by the
handler's catch. -/
def taskCreate (userId : String) (p : Params) (dueDate : JsDateVal)
    (newId : String) : Except String Task :=
  let title := jsTrim (p.title.getD "")
  if title = "" then .error "Please provide a task title"
  else if !(taskStatusEnum.contains (statusOrDefault p.status)) then
    .error "Task validation failed: status is not a valid enum value"
  else
    match dueDate with
    | .invalid => .error "Task validation failed: Cast to Date failed"
    | .nullv => .ok
        { id := newId, user := userId, title := title
          description := p.description.getD ""
          completed := false, completedAt := none
          dueDate := none
          priority := priorityOrDefault p.priority
          status := statusOrDefault p.status
          tags := p.tags.getD []
          project := match p.projectId with
            | some s => if s = "" then none else some s
            | none => none }
    | .datev d => .ok
        { id := newId, user := userId, title := title
          description := p.description.getD ""
          completed := false, completedAt := none
          dueDate := some d
          priority := priorityOrDefault p.priority
          status := statusOrDefault p.status
          tags := p.tags.getD []
          project := match p.projectId with
            | some s => if s = "" then none else some s
            | none => none }

/-- Replace the task with the given id in the store (models
`findOneAndUpdate` on `_id`). -/
def updateTaskStore (store : List Task) (id : String) (f : Task → Task) : List Task :=
  store.map (fun t => if t.id == id then f t else t)

/-- The record update applied by update_task's `findOneAndUpdate`:
each `updateFields` entry mirrors one `if` of the source. -/
def applyTaskUpdate (now : Int) (p : Params) (t : Task) : Task :=
  { t with
    title := match p.title with
      | some s => if s = "" then t.title else s
      | none => t.title
    description := (p.description.getD t.description)
    completed := match p.completed with
      | some b => b
      | none => t.completed
    completedAt := match p.completed with
      | some b => if b then some now else none
      | none => t.completedAt
    priority := match p.priority with
      | some s => if s = "" then t.priority else priorityOrDefault (some s)
      | none => t.priority
    status := match p.status with
      | some s => if s = "" then t.status else s
      | none => t.status
    tags := match p.tags with
      | some l => l
      | none => t.tags
    project := match p.projectId with
      | some s => if s = "" then none else some s
      | none => t.project }

/-- Merge the update_task due-date assignment (when present) into the
updated record; fields outside `updateFields` are untouched by
`findOneAndUpdate`. -/
def mergeDueDate (dd : Option Int) (t : Task) : Task :=
  match dd with
  | some d => { t with dueDate := some d }
  | none => t

/-- The runValidators check of update_task: a truthy `status` parameter
outside the models/Task.js enum fails mongoose update validation. -/
def taskStatusViolation (p : Params) : Bool :=
  !(oStrFalsy p.status) && !(taskStatusEnum.contains (p.status.getD ""))

/-- The update_task due-date assignment with the updated value, or the
error of the `isNaN` guard (`Invalid due date format`); a `null` result
would fault on `.getTime()` before that guard. Only reached when
`params.dueDate` is truthy. -/
def updateTaskDueDate (env : JsEnv) (now : Int) (p : Params) : Except String (Option Int) :=
  if oStrFalsy p.dueDate then .ok none
  else
    match parseDateInput env now p.dueDate now with
    | .datev d => .ok (some d)
    | .invalid => .error "Invalid due date format"
    | .nullv => .error "TypeError: cannot read getTime of null"

/-- The update_task case of handleTaskAction. Throws (task not found,
invalid due date, mongoose update validation on the `status` enum) are
caught by the handler's catch and become failure envelopes. -/
def updateTaskRun (env : JsEnv) (now : Int) (userId : String) (p : Params)
    (store : List Task) : List Task × TaskEnvelope :=
  match findTask env store userId p.taskId with
  | none =>
      (store, { success := false
                error := some "Task not found or you don\u0027t have permission to update it" })
  | some task =>
    match updateTaskDueDate env now p with
    | .error m => (store, { success := false, error := some m })
    | .ok dd =>
      -- runValidators: update validation rejects a status outside the enum
      if taskStatusViolation p then
        (store, { success := false
                  error := some "Task validation failed: status is not a valid enum value" })
      else
        (updateTaskStore store task.id
          (fun _ => mergeDueDate dd (applyTaskUpdate now p task)),
         { success := true, data := some (mergeDueDate dd (applyTaskUpdate now p task)) })

/-- The create_task case of handleTaskAction: past-due rejection unless
`allowPastDue` is truthy, then Task.create. -/
def createTaskRun (env : JsEnv) (now : Int) (userId : String) (p : Params)
    (store : List Task) (newId : String) : List Task × TaskEnvelope :=
  let dueDate := parseDateInput env now p.dueDate (addDaysMs now 7)
  let pastDue := match dueDate with
    | .datev d => decide (d < now)
    | _ => false
  if pastDue && !(oBoolTruthy p.allowPastDue) then
    (store, { success := false, error := some "Due date cannot be in the past" })
  else
    match taskCreate userId p dueDate newId with
    | .ok t => (store ++ [t], { success := true, data := some t })
    | .error m => (store, { success := false, error := some m })

/-- The complete_task case of handleTaskAction. -/
def completeTaskRun (env : JsEnv) (now : Int) (userId : String) (p : Params)
    (store : List Task) : List Task × TaskEnvelope :=
  match findTask env store userId p.taskId with
  | none =>
      (store, { success := false
                error := some "Task not found or you don\u0027t have permission to update it" })
  | some task =>
    let updated := { task with completed := true, completedAt := some now, status := "Completed" }
    (updateTaskStore store task.id (fun _ => updated),
     { success := true, data := some updated })

/-- The uncomplete_task / reopen_task case of handleTaskAction. -/
def reopenTaskRun (env : JsEnv) (userId : String) (p : Params)
    (store : List Task) : List Task × TaskEnvelope :=
  match findTask env store userId p.taskId with
  | none =>
      (store, { success := false
                error := some "Task not found or you don\u0027t have permission to update it" })
  | some task =>
    let updated := { task with completed := false, completedAt := none
                               status := statusOrDefault p.status }
    (updateTaskStore store task.id (fun _ => updated),
     { success := true, data := some updated })

/-- The fetch_tasks case: a read-only query returning the user's tasks.
No claim concerns this path, so the filter/sort/pagination refinements of
the Mongo query are not reproduced here. -/
def fetchTasksRun (userId : String) (store : List Task) : List Task × TaskEnvelope :=
  let found := store.filter (fun t => t.user == userId)
  (store, { success := true, tasks := some found })

/-- The early-return envelope for missing required fields. -/
def missingTaskEnvelope (missing : List String) : TaskEnvelope :=
  { success := false, missingFields := missing
    error := some ("Missing required fields: " ++ String.intercalate ", " missing) }

/-- handleTaskAction of taskActions.js: required-field check, then the
switch on the action type. The switch has no default case, so an unknown
action leaves `result` null and still returns success. -/
def handleTaskAction (env : JsEnv) (now : Int) (userId : String) (actionType : String)
    (p : Params) (store : List Task) (newId : String) : List Task × TaskEnvelope :=
  let missing := validateParamsTI (taskRequiredFields actionType) p
  if !missing.isEmpty then
    (store, missingTaskEnvelope missing)
  else if actionType = "create_task" then createTaskRun env now userId p store newId
  else if actionType = "update_task" then updateTaskRun env now userId p store
  else if actionType = "complete_task" then completeTaskRun env now userId p store
  else if actionType = "uncomplete_task" then reopenTaskRun env userId p store
  else if actionType = "reopen_task" then reopenTaskRun env userId p store
  else if actionType = "fetch_tasks" then fetchTasksRun userId store
  else (store, { success := true, data := none })

/-- The invariant of spec claim C1 on a stored task. -/
def taskInv (t : Task) : Prop :=
  t.completed = true ↔ (t.status = "Completed" ∧ t.completedAt ≠ none)

instance (t : Task) : Decidable (taskInv t) := by
  unfold taskInv; infer_instance

/-- The lockstep between `completed` and `completedAt` alone. -/
def taskLockstep (t : Task) : Prop := t.completed = true ↔ t.completedAt ≠ none

instance (t : Task) : Decidable (taskLockstep t) := by
  unfold taskLockstep; infer_instance

/-- A concrete runtime environment in which every identifier counts as a
well-formed ObjectId and no string parses as a date, an integer, an
amount or an email. -/
def envObjId : JsEnv :=
  { isObjectId := fun _ => true, jsDate := fun _ => none, jsParseIntH := fun _ => none
    amountMatch := fun _ => none, emailMatch := fun _ => none }

/-- Any task produced by `taskCreate` has `completed = false` and no
completion timestamp. -/
theorem taskCreate_fields (userId : String) (p : Params) (dueDate : JsDateVal)
    (newId : String) (t : Task) (h : taskCreate userId p dueDate newId = .ok t) :
    t.completed = false ∧ t.completedAt = none := by
  unfold taskCreate at h
  dsimp only at h
  by_cases h1 : (jsTrim (p.title.getD "") = "")
  · rw [if_pos h1] at h; cases h
  · rw [if_neg h1] at h
    by_cases h2 : (!taskStatusEnum.contains (statusOrDefault p.status)) = true
    · rw [if_pos h2] at h; cases h
    · rw [if_neg h2] at h
      cases dueDate with
      | invalid => cases h
      | nullv => injection h with h3; subst h3; exact ⟨rfl, rfl⟩
      | datev d => injection h with h3; subst h3; exact ⟨rfl, rfl⟩

/-- parseDateInput never produces an Invalid Date. -/
theorem parseDateInput_ne_invalid (env : JsEnv) (now : Int) (input : Option String)
    (dflt : Int) : parseDateInput env now input dflt ≠ .invalid := by
  unfold parseDateInput
  cases input with
  | none => simp
  | some s =>
    dsimp only
    split
    · simp
    · split
      · simp
      · split_ifs <;> simp

/-- A task found by findTask is a member of the store. -/
theorem findTask_mem (env : JsEnv) (store : List Task) (userId : String)
    (ident : Option String) (task : Task)
    (h : findTask env store userId ident = some task) : task ∈ store := by
  unfold findTask at h
  cases ident with
  | none => cases h
  | some s =>
    dsimp only at h
    split at h
    · cases h
    · split at h <;> exact List.mem_of_find?_eq_some h

/-- Unfolding of the task dispatcher at the literal create_task action. -/
theorem handleTaskAction_create_eq (env : JsEnv) (now : Int) (userId : String) (p : Params)
    (store : List Task) (newId : String) :
    handleTaskAction env now userId "create_task" p store newId =
      (if !(validateParamsTI ["title"] p).isEmpty then
        (store, missingTaskEnvelope (validateParamsTI ["title"] p))
      else createTaskRun env now userId p store newId) := rfl

/-- Unfolding of the task dispatcher at the literal update_task action. -/
theorem handleTaskAction_update_eq (env : JsEnv) (now : Int) (userId : String) (p : Params)
    (store : List Task) (newId : String) :
    handleTaskAction env now userId "update_task" p store newId =
      (if !(validateParamsTI ["taskId"] p).isEmpty then
        (store, missingTaskEnvelope (validateParamsTI ["taskId"] p))
      else updateTaskRun env now userId p store) := rfl

/-- Unfolding of the task dispatcher at the literal complete_task action. -/
theorem handleTaskAction_complete_eq (env : JsEnv) (now : Int) (userId : String) (p : Params)
    (store : List Task) (newId : String) :
    handleTaskAction env now userId "complete_task" p store newId =
      (if !(validateParamsTI ["taskId"] p).isEmpty then
        (store, missingTaskEnvelope (validateParamsTI ["taskId"] p))
      else completeTaskRun env now userId p store) := rfl

/-- Unfolding of the task dispatcher at the literal uncomplete_task action. -/
theorem handleTaskAction_uncomplete_eq (env : JsEnv) (now : Int) (userId : String) (p : Params)
    (store : List Task) (newId : String) :
    handleTaskAction env now userId "uncomplete_task" p store newId =
      (if !(validateParamsTI ["taskId"] p).isEmpty then
        (store, missingTaskEnvelope (validateParamsTI ["taskId"] p))
      else reopenTaskRun env userId p store) := rfl

/-- Unfolding of the task dispatcher at the literal reopen_task action. -/
theorem handleTaskAction_reopen_eq (env : JsEnv) (now : Int) (userId : String) (p : Params)
    (store : List Task) (newId : String) :
    handleTaskAction env now userId "reopen_task" p store newId =
      (if !(validateParamsTI ["taskId"] p).isEmpty then
        (store, missingTaskEnvelope (validateParamsTI ["taskId"] p))
      else reopenTaskRun env userId p store) := rfl

/-- A task returned as data by createTaskRun is freshly created. -/
theorem createTaskRun_data (env : JsEnv) (now : Int) (userId : String) (p : Params)
    (store : List Task) (newId : String) (t : Task)
    (h : (createTaskRun env now userId p store newId).2.data = some t) :
    t.completed = false ∧ t.completedAt = none := by
  unfold createTaskRun at h
  dsimp only at h
  split at h
  · exact absurd h (by simp [TaskEnvelope.data])
  · split at h
    next t0 hc =>
      dsimp only at h
      injection h with h2
      subst h2
      exact taskCreate_fields userId p _ newId t0 hc
    next m hc =>
      exact absurd h (by simp [TaskEnvelope.data])

/-- A task returned as data by completeTaskRun is completed with a
timestamp and completed status. -/
theorem completeTaskRun_data (env : JsEnv) (now : Int) (userId : String) (p : Params)
    (store : List Task) (t : Task)
    (h : (completeTaskRun env now userId p store).2.data = some t) :
    t.completed = true ∧ t.completedAt = some now ∧ t.status = "Completed" := by
  unfold completeTaskRun at h
  split at h
  · exact absurd h (by simp [TaskEnvelope.data])
  · dsimp only at h
    injection h with h2
    subst h2
    exact ⟨rfl, rfl, rfl⟩

/-- A task returned as data by reopenTaskRun is reopened with no
completion timestamp. -/
theorem reopenTaskRun_data (env : JsEnv) (userId : String) (p : Params)
    (store : List Task) (t : Task)
    (h : (reopenTaskRun env userId p store).2.data = some t) :
    t.completed = false ∧ t.completedAt = none := by
  unfold reopenTaskRun at h
  split at h
  · exact absurd h (by simp [TaskEnvelope.data])
  · dsimp only at h
    injection h with h2
    subst h2
    exact ⟨rfl, rfl⟩

/-- updateTaskRun preserves the completed/completedAt lockstep. -/
theorem updateTaskRun_lockstep (env : JsEnv) (now : Int) (userId : String) (p : Params)
    (store : List Task) (t : Task)
    (hpre : ∀ t0 ∈ store, taskLockstep t0)
    (h : (updateTaskRun env now userId p store).2.data = some t) :
    taskLockstep t := by
  unfold updateTaskRun at h
  split at h
  · exact absurd h (by simp [TaskEnvelope.data])
  · rename_i task hfind
    split at h
    · exact absurd h (by simp [TaskEnvelope.data])
    · rename_i dd hdd
      split at h
      · exact absurd h (by simp [TaskEnvelope.data])
      · dsimp only at h
        injection h with h2
        subst h2
        have htask : taskLockstep task := hpre task (findTask_mem env store userId p.taskId task hfind)
        unfold taskLockstep at htask ⊢
        cases dd <;>
          cases hc : p.completed with
          | some b => cases b <;> simp [mergeDueDate, applyTaskUpdate, hc]
          | none => simpa [mergeDueDate, applyTaskUpdate, hc] using htask

/-- An in-progress task owned by user u. -/
def taskC1 : Task := { id := "a", user := "u", title := "Fix gate" }

/-- An update_task request that sets only the completed flag. -/
def paramsC1 : Params := { taskId := some "a", completed := some true }

/-- The task stored after that update. -/
def taskC1post : Task := { taskC1 with completed := true, completedAt := some 0 }

/-- C1 (counterexample): update_task with completed true and no status
parameter stores a task whose completed flag is true while its status is
still Not Started, so the claimed invariant fails immediately after a
dispatcher mutation. -/
theorem update_task_breaks_completed_status_lockstep :
    (handleTaskAction envObjId 0 "u" "update_task" paramsC1 [taskC1] "b").2.data
      = some taskC1post
    ∧ ¬ taskInv taskC1post := by
  constructor
  · decide
  · decide

/-- C1 (amended): after create_task, complete_task and
uncomplete_task/reopen_task the stored task satisfies
completed = true iff (status = Completed and completedAt is non-null);
update_task keeps completed and completedAt in lockstep with each other
(assuming every stored task already satisfied that lockstep) but does not
synchronize status with them. -/
theorem taskInv_after_dispatcher_mutations :
    (∀ env now userId p store newId t,
      (handleTaskAction env now userId "create_task" p store newId).2.data = some t → taskInv t)
  ∧ (∀ env now userId p store newId t,
      (handleTaskAction env now userId "complete_task" p store newId).2.data = some t → taskInv t)
  ∧ (∀ env now userId p store newId t,
      (handleTaskAction env now userId "uncomplete_task" p store newId).2.data = some t → taskInv t)
  ∧ (∀ env now userId p store newId t,
      (handleTaskAction env now userId "reopen_task" p store newId).2.data = some t → taskInv t)
  ∧ (∀ env now userId p store newId t,
      (∀ t0 ∈ store, taskLockstep t0) →
      (handleTaskAction env now userId "update_task" p store newId).2.data = some t →
      taskLockstep t) := by
  refine ⟨?_, ?_, ?_, ?_, ?_⟩
  · intro env now userId p store newId t h
    rw [handleTaskAction_create_eq] at h
    split at h
    · exact absurd h (by simp [missingTaskEnvelope])
    · have hf := createTaskRun_data env now userId p store newId t h
      simp [taskInv, hf.1, hf.2]
  · intro env now userId p store newId t h
    rw [handleTaskAction_complete_eq] at h
    split at h
    · exact absurd h (by simp [missingTaskEnvelope])
    · have hf := completeTaskRun_data env now userId p store t h
      simp [taskInv, hf.1, hf.2.1, hf.2.2]
  · intro env now userId p store newId t h
    rw [handleTaskAction_uncomplete_eq] at h
    split at h
    · exact absurd h (by simp [missingTaskEnvelope])
    · have hf := reopenTaskRun_data env userId p store t h
      simp [taskInv, hf.1, hf.2]
  · intro env now userId p store newId t h
    rw [handleTaskAction_reopen_eq] at h
    split at h
    · exact absurd h (by simp [missingTaskEnvelope])
    · have hf := reopenTaskRun_data env userId p store t h
      simp [taskInv, hf.1, hf.2]
  · intro env now userId p store newId t hpre h
    rw [handleTaskAction_update_eq] at h
    split at h
    · exact absurd h (by simp [missingTaskEnvelope])
    · exact updateTaskRun_lockstep env now userId p store t hpre h

/-- Concrete instantiations of taskInv_after_dispatcher_mutations. -/
theorem taskInv_after_dispatcher_mutations_witness :
    taskInv { taskC1 with completed := true, completedAt := some 7, status := "Completed" }
    ∧ taskLockstep taskC1post := by
  constructor
  · exact taskInv_after_dispatcher_mutations.2.1 envObjId 7 "u" paramsC1 [taskC1] "b"
      { taskC1 with completed := true, completedAt := some 7, status := "Completed" }
      (by decide)
  · exact taskInv_after_dispatcher_mutations.2.2.2.2 envObjId 0 "u" paramsC1 [taskC1] "b"
      taskC1post (by decide) (by decide)

/-- C8: create_task with a due date that parses to the past and no
allowPastDue override fails with the past-due error and creates no task;
with the override (and a valid status parameter) the creation proceeds. -/
theorem create_task_past_due_policy (env : JsEnv) (now : Int) (userId : String)
    (p : Params) (store : List Task) (newId : String) (d : Int)
    (hTitle : oStrBlank p.title = false)
    (hParse : parseDateInput env now p.dueDate (addDaysMs now 7) = .datev d)
    (hPast : d < now) :
    (oBoolTruthy p.allowPastDue = false →
      handleTaskAction env now userId "create_task" p store newId =
        (store, { success := false, error := some "Due date cannot be in the past" }))
    ∧ (p.allowPastDue = some true →
        taskStatusEnum.contains (statusOrDefault p.status) = true →
        ∃ t, handleTaskAction env now userId "create_task" p store newId =
          (store ++ [t], { success := true, data := some t })) := by
  have hmiss : validateParamsTI ["title"] p = [] := by
    simp [validateParamsTI, paramBlank, hTitle]
  obtain ⟨s, hsome, hs⟩ : ∃ s, p.title = some s ∧ ¬ (jsTrim s = "") := by
    cases hts : p.title with
    | none => rw [hts] at hTitle; cases hTitle
    | some s =>
      refine ⟨s, rfl, ?_⟩
      rw [hts] at hTitle
      simpa [oStrBlank] using hTitle
  constructor
  · intro hOverride
    rw [handleTaskAction_create_eq, hmiss]
    simp only [List.isEmpty_nil, Bool.not_true, Bool.false_eq_true, if_false]
    unfold createTaskRun
    rw [hParse]
    dsimp only
    rw [hOverride]
    simp [hPast]
  · intro hOverride hStatus
    rw [handleTaskAction_create_eq, hmiss]
    simp only [List.isEmpty_nil, Bool.not_true, Bool.false_eq_true, if_false]
    unfold createTaskRun
    rw [hParse]
    dsimp only
    rw [hOverride]
    simp only [oBoolTruthy, Bool.not_true, Bool.and_false, Bool.false_eq_true, if_false]
    unfold taskCreate
    rw [hsome]
    dsimp only [Option.getD]
    rw [if_neg hs, if_neg (by rw [hStatus]; decide)]
    exact ⟨_, rfl⟩

/-- Concrete past-due create_task request. -/
def paramsC8 : Params := { title := some "Order parts", dueDate := some "yesterday" }

/-- Concrete instantiations of create_task_past_due_policy: the request is
rejected without the override and succeeds with it. -/
theorem create_task_past_due_policy_witness :
    (handleTaskAction envObjId 1000 "u" "create_task" paramsC8 [] "n" =
      ([], { success := false, error := some "Due date cannot be in the past" }))
    ∧ ∃ t, handleTaskAction envObjId 1000 "u" "create_task"
        { paramsC8 with allowPastDue := some true } [] "n" =
          ([] ++ [t], { success := true, data := some t }) := by
  constructor
  · exact (create_task_past_due_policy envObjId 1000 "u" paramsC8 [] "n"
      (addDaysMs 1000 (-1)) (by decide) (by decide) (by decide)).1 (by decide)
  · exact (create_task_past_due_policy envObjId 1000 "u"
      { paramsC8 with allowPastDue := some true } [] "n"
      (addDaysMs 1000 (-1)) (by decide) (by decide) (by decide)).2 rfl (by decide)

/-- The date keywords understood by parseDateInput. -/
def dateKeyword (s : String) : Prop :=
  jsTrim (jsLower s) = "today" ∨ jsTrim (jsLower s) = "tomorrow" ∨
  jsTrim (jsLower s) = "yesterday" ∨ jsTrim (jsLower s) = "next week" ∨
  jsTrim (jsLower s) = "next month"

instance (s : String) : Decidable (dateKeyword s) := by
  unfold dateKeyword; infer_instance

/-- updateTaskDueDate can never fail with the invalid-format message,
because parseDateInput never returns an Invalid Date. -/
theorem updateTaskDueDate_ne_invalid_format (env : JsEnv) (now : Int) (p : Params) :
    updateTaskDueDate env now p ≠ .error "Invalid due date format" := by
  unfold updateTaskDueDate
  split
  · simp
  · cases hp : parseDateInput env now p.dueDate now with
    | nullv => simp
    | datev d => simp
    | invalid => exact absurd hp (parseDateInput_ne_invalid env now p.dueDate now)

/-- C10: the task date parser is total on non-empty string inputs and
never yields an invalid date; a non-ISO non-keyword string falls back to
the supplied default; hence the invalid-due-date error branch of
update_task can never fire. -/
theorem parseDateInput_total_invalid_branch_unreachable :
    (∀ env now s dflt, s ≠ "" → ∃ d, parseDateInput env now (some s) dflt = .datev d)
  ∧ (∀ env now s dflt, s ≠ "" → env.jsDate s = none → ¬ dateKeyword s →
      parseDateInput env now (some s) dflt = .datev dflt)
  ∧ (∀ env now userId p store newId,
      ((handleTaskAction env now userId "update_task" p store newId).2).error ≠
        some "Invalid due date format") := by
  refine ⟨?_, ?_, ?_⟩
  · intro env now s dflt hs
    unfold parseDateInput
    dsimp only
    rw [if_neg hs]
    cases hjs : env.jsDate s with
    | some d => exact ⟨d, rfl⟩
    | none => split_ifs <;> exact ⟨_, rfl⟩
  · intro env now s dflt hs hjs hk
    unfold dateKeyword at hk
    push_neg at hk
    obtain ⟨h1, h2, h3, h4, h5⟩ := hk
    unfold parseDateInput
    dsimp only
    rw [if_neg hs, hjs]
    rw [if_neg h1, if_neg h2, if_neg h3, if_neg h4, if_neg h5]
  · intro env now userId p store newId
    rw [handleTaskAction_update_eq]
    by_cases hb : oStrBlank p.taskId = true
    · have hm : validateParamsTI ["taskId"] p = ["taskId"] := by
        simp [validateParamsTI, paramBlank, hb]
      rw [hm]
      have hred : ((if !(["taskId"] : List String).isEmpty then
            (store, missingTaskEnvelope ["taskId"])
          else updateTaskRun env now userId p store)).2.error
          = some ("Missing required fields: " ++ String.intercalate ", " ["taskId"]) := rfl
      rw [hred]
      decide
    · have hb' : oStrBlank p.taskId = false := by
        cases hx : oStrBlank p.taskId
        · rfl
        · exact absurd hx hb
      have hm : validateParamsTI ["taskId"] p = [] := by
        simp [validateParamsTI, paramBlank, hb']
      rw [hm]
      simp only [List.isEmpty_nil, Bool.not_true, Bool.false_eq_true, if_false]
      unfold updateTaskRun
      split
      · intro hcontra
        simp at hcontra
      · rename_i task hfind
        split
        · rename_i m hdd
          intro hcontra
          simp at hcontra
          exact updateTaskDueDate_ne_invalid_format env now p (hcontra ▸ hdd)
        · rename_i dd hdd
          split
          · intro hcontra; simp at hcontra
          · intro hcontra; simp at hcontra

/-- Concrete instantiations of the parseDateInput totality theorem. -/
theorem parseDateInput_total_invalid_branch_unreachable_witness :
    (∃ d, parseDateInput envObjId 0 (some "whenever") 42 = .datev d)
    ∧ parseDateInput envObjId 0 (some "whenever") 42 = .datev 42 := by
  constructor
  · exact parseDateInput_total_invalid_branch_unreachable.1 envObjId 0 "whenever" 42 (by decide)
  · exact parseDateInput_total_invalid_branch_unreachable.2.1 envObjId 0 "whenever" 42
      (by decide) rfl (by decide)

/-! ## Event domain (eventActions.js, models/Event.js) -/

/-- A stored Event document (models/Event.js). The schema has no
`cancelled` path, so cancel_event's update is stripped by strict mode. -/
structure Event where
  id : String
  user : String
  title : String
  description : String := ""
  startTime : Int
  endTime : Option Int := none
  location : String := ""
  deriving Repr, DecidableEq

/-- findEvent of eventActions.js: id lookup, else case-insensitive
partial (substring) title match, scoped to the user. -/
def findEvent (env : JsEnv) (store : List Event) (userId : String)
    (identifier : Option String) : Option Event :=
  match identifier with
  | none => none
  | some ident =>
    if ident = "" then none
    else if env.isObjectId ident then
      store.find? (fun e => e.id == ident && e.user == userId)
    else
      store.find? (fun e => jsIncludes (jsLower e.title) (jsLower ident) && e.user == userId)

/-- Model of `defaultDate.setHours(h, 0, 0, 0)`: replace the time of day
on the default date. The source relies on local-time clock arithmetic;
only validity and the default fallbacks are claim-relevant. -/
def setHoursModel (d h : Int) : Int := d - d.emod dayMs + h * hourMs

/-- parseDateTime of eventActions.js: falsy input gives null; then
`new Date(input)`; then the am/pm heuristic (`parseInt` yielding NaN
makes `setHours` produce an Invalid Date); otherwise the fallback
`addHours(new Date(), 1)`. -/
def parseDateTime (env : JsEnv) (now : Int) (input : Option String)
    (defaultDate : Int) : JsDateVal :=
  match input with
  | none => .nullv
  | some s =>
    if s = "" then .nullv
    else
      match env.jsDate s with
      | some d => .datev d
      | none =>
        if jsIncludes s "pm" then
          match env.jsParseIntH s with
          | some h => .datev (setHoursModel defaultDate (h + 12))
          | none => .invalid
        else if jsIncludes s "am" then
          match env.jsParseIntH s with
          | some h => .datev (setHoursModel defaultDate h)
          | none => .invalid
        else .datev (now + hourMs)

/-- Required-field table of handleEventAction. -/
def eventRequiredFields : String → List String
  | "create_event" => ["title", "startTime"]
  | "update_event" => ["eventId"]
  | "cancel_event" => ["eventId"]
  | "delete_event" => ["eventId"]
  | _ => []

/-- Per-field truthiness test of the validateParams variant used by
eventActions.js and baseActions.js (`!providedParams[field]`). -/
def paramFalsy (p : Params) : String → Bool
  | "title" => oStrFalsy p.title
  | "startTime" => oStrFalsy p.startTime
  | "eventId" => oStrFalsy p.eventId
  | "taskId" => oStrFalsy p.taskId
  | "invoiceId" => oStrFalsy p.invoiceId
  | "clientName" => oStrFalsy p.clientName
  | "email" => oStrFalsy p.email
  | _ => true

/-- validateParams of eventActions.js: required fields that are falsy. -/
def validateParamsE (req : List String) (p : Params) : List String :=
  req.filter (paramFalsy p)

/-- Result envelope of handleEventAction; the handler has no try/catch,
so thrown errors propagate to the router as `Except.error`. -/
structure EventEnvelope where
  success : Bool
  data : Option Event := none
  missingFields : List String := []
  error : Option String := none
  deriving Repr, DecidableEq

deriving instance DecidableEq for Except

/-- The truthy-string content of the three-state endTime parameter. -/
def truthyStr : Option (Option String) → Option String
  | some (some s) => if s = "" then none else some s
  | _ => none

/-- Event.create document validation of models/Event.js: an endTime, when
present, must be strictly after startTime (the handler already threw on a
violation, so this cannot fire at create). -/
def eventCreate (userId : String) (p : Params) (startTime : Int)
    (endTime : Option Int) (newId : String) : Except String Event :=
  match endTime with
  | some e =>
    if e > startTime then
      .ok { id := newId, user := userId, title := p.title.getD ""
            description := p.description.getD "", startTime := startTime
            endTime := some e, location := p.location.getD "" }
    else .error "End time must be after start time"
  | none =>
    .ok { id := newId, user := userId, title := p.title.getD ""
          description := p.description.getD "", startTime := startTime
          endTime := none, location := p.location.getD "" }

/-- The create_event case of handleEventAction: parse and validate
startTime, then (when a truthy endTime parameter is present) parse and
validate endTime and reject endTime less than or equal to startTime. -/
def createEventRun (env : JsEnv) (now : Int) (userId : String) (p : Params)
    (store : List Event) (newId : String) : List Event × Except String EventEnvelope :=
  match parseDateTime env now p.startTime now with
  | .datev st =>
    (match truthyStr p.endTime with
     | some es =>
       match parseDateTime env now (some es) st with
       | .datev et =>
         if et ≤ st then (store, .error "End time must be after start time")
         else
           match eventCreate userId p st (some et) newId with
           | .ok e => (store ++ [e], .ok { success := true, data := some e })
           | .error m => (store, .error m)
       | _ => (store, .error "Invalid end time format")
     | none =>
       match eventCreate userId p st none newId with
       | .ok e => (store ++ [e], .ok { success := true, data := some e })
       | .error m => (store, .error m))
  | _ => (store, .error "Invalid start time format")

/-- The startTime entry of update_event's updateFields: absent when the
parameter is falsy, otherwise the parsed value or the format error. -/
def updateEventStart (env : JsEnv) (now : Int) (p : Params) : Except String (Option Int) :=
  if oStrFalsy p.startTime then .ok none
  else
    match parseDateTime env now p.startTime now with
    | .datev d => .ok (some d)
    | _ => .error "Invalid start time format"

/-- The endTime entry of update_event's updateFields: `none` when no
update, `some none` for an explicit null, `some (some e)` for a parsed
value; base date is the updated startTime when present, else the stored
one. -/
def updateEventEnd (env : JsEnv) (now : Int) (p : Params) (stO : Option Int)
    (event : Event) : Except String (Option (Option Int)) :=
  match truthyStr p.endTime with
  | some es =>
    match parseDateTime env now (some es) (stO.getD event.startTime) with
    | .datev d => .ok (some (some d))
    | _ => .error "Invalid end time format"
  | none =>
    if p.endTime = some none then .ok (some none) else .ok none

/-- Apply update_event's updateFields through findOneAndUpdate. -/
def applyEventUpdate (p : Params) (stO : Option Int) (etU : Option (Option Int))
    (e : Event) : Event :=
  { e with
    title := match p.title with
      | some s => if s = "" then e.title else s
      | none => e.title
    description := p.description.getD e.description
    startTime := stO.getD e.startTime
    endTime := match etU with
      | some v => v
      | none => e.endTime
    location := p.location.getD e.location }

/-- Replace the event with the given id in the store. -/
def updateEventStore (store : List Event) (id : String) (f : Event → Event) : List Event :=
  store.map (fun e => if e.id == id then f e else e)

/-- The update_event case of handleEventAction. Mongoose update
validation with runValidators runs validators only on the paths present
in the update, so the models/Event.js endTime validator runs only when
endTime is among the updateFields; when it runs it is modelled with the
most charitable (document-context) reading, comparing against the updated
startTime. -/
def updateEventRun (env : JsEnv) (now : Int) (userId : String) (p : Params)
    (store : List Event) : List Event × Except String EventEnvelope :=
  match findEvent env store userId p.eventId with
  | none => (store, .error "Event not found or you don't have permission to update it")
  | some event =>
    match updateEventStart env now p with
    | .error m => (store, .error m)
    | .ok stO =>
      match updateEventEnd env now p stO event with
      | .error m => (store, .error m)
      | .ok etU =>
        match etU with
        | some (some e) =>
          if e > stO.getD event.startTime then
            (updateEventStore store event.id (fun _ => applyEventUpdate p stO etU event),
             .ok { success := true, data := some (applyEventUpdate p stO etU event) })
          else (store, .error "End time must be after start time")
        | _ =>
          (updateEventStore store event.id (fun _ => applyEventUpdate p stO etU event),
           .ok { success := true, data := some (applyEventUpdate p stO etU event) })

/-- The cancel_event case: the `cancelled` path is not in the schema, so
strict mode strips the update and the stored document is unchanged. -/
def cancelEventRun (env : JsEnv) (userId : String) (p : Params)
    (store : List Event) : List Event × Except String EventEnvelope :=
  match findEvent env store userId p.eventId with
  | none => (store, .error "Event not found or you don't have permission to update it")
  | some event => (store, .ok { success := true, data := some event })

/-- The delete_event case: remove the event; the JS result wraps the
deleted document, modelled as the returned data. -/
def deleteEventRun (env : JsEnv) (userId : String) (p : Params)
    (store : List Event) : List Event × Except String EventEnvelope :=
  match findEvent env store userId p.eventId with
  | none => (store, .error "Event not found or you don't have permission to delete it")
  | some event =>
    (store.filter (fun e => !(e.id == event.id)),
     .ok { success := true, data := some event })

/-- handleEventAction of eventActions.js: required-field check then the
switch; an unrecognised action only logs a warning and returns success
with null data. -/
def handleEventAction (env : JsEnv) (now : Int) (userId : String) (actionType : String)
    (p : Params) (store : List Event) (newId : String) :
    List Event × Except String EventEnvelope :=
  let missing := validateParamsE (eventRequiredFields actionType) p
  if !missing.isEmpty then
    (store, .ok { success := false, missingFields := missing
                  error := some ("Missing required fields: " ++ String.intercalate ", " missing) })
  else if actionType = "create_event" then createEventRun env now userId p store newId
  else if actionType = "update_event" then updateEventRun env now userId p store
  else if actionType = "cancel_event" then cancelEventRun env userId p store
  else if actionType = "delete_event" then deleteEventRun env userId p store
  else (store, .ok { success := true, data := none })

/-- Unfolding of the event dispatcher at the literal create_event action. -/
theorem handleEventAction_create_eq (env : JsEnv) (now : Int) (userId : String) (p : Params)
    (store : List Event) (newId : String) :
    handleEventAction env now userId "create_event" p store newId =
      (if !(validateParamsE ["title", "startTime"] p).isEmpty then
        (store, .ok { success := false
                      missingFields := validateParamsE ["title", "startTime"] p
                      error := some ("Missing required fields: " ++
                        String.intercalate ", " (validateParamsE ["title", "startTime"] p)) })
      else createEventRun env now userId p store newId) := rfl

/-- An unparseable start time with no am/pm marker. -/
def paramsC7 : Params := { title := some "Site visit", startTime := some "soon" }

/-- The event the dispatcher silently creates for it: start time now + 1h. -/
def eventC7 : Event := { id := "e1", user := "u", title := "Site visit", startTime := hourMs }

/-- C7 (counterexample): create_event with a start time that neither
`new Date` nor the am/pm heuristic can parse is not rejected; the event
is created with the silent fallback start time now + 1 hour. -/
theorem create_event_unparseable_start_silently_defaults :
    handleEventAction envObjId 0 "u" "create_event" paramsC7 [] "e1" =
      ([eventC7], .ok { success := true, data := some eventC7 }) := by
  decide

/-- C7 (amended): an unparseable start time is rejected with the
invalid-format error only when the string contains am or pm and its
numeric prefix does not parse; otherwise it silently falls back to
now + 1 hour. -/
theorem create_event_start_time_rejection_policy :
    (∀ env now s dflt, s ≠ "" → env.jsDate s = none →
      jsIncludes s "pm" = false → jsIncludes s "am" = false →
      parseDateTime env now (some s) dflt = .datev (now + hourMs))
  ∧ (∀ env now userId p store newId s,
      oStrFalsy p.title = false → p.startTime = some s → s ≠ "" →
      env.jsDate s = none → jsIncludes s "pm" = true → env.jsParseIntH s = none →
      handleEventAction env now userId "create_event" p store newId =
        (store, .error "Invalid start time format"))
  ∧ (∀ env now userId p store newId s,
      oStrFalsy p.title = false → p.startTime = some s → s ≠ "" →
      env.jsDate s = none → jsIncludes s "pm" = false → jsIncludes s "am" = true →
      env.jsParseIntH s = none →
      handleEventAction env now userId "create_event" p store newId =
        (store, .error "Invalid start time format")) := by
  refine ⟨?_, ?_, ?_⟩
  · intro env now s dflt hs hjs hpm ham
    unfold parseDateTime
    dsimp only
    rw [if_neg hs, hjs, hpm, ham]
    simp
  · intro env now userId p store newId s hTitle hStart hs hjs hpm hint
    have hst : oStrFalsy p.startTime = false := by rw [hStart]; simpa [oStrFalsy] using hs
    have hmiss : validateParamsE ["title", "startTime"] p = [] := by
      simp [validateParamsE, paramFalsy, hTitle, hst]
    rw [handleEventAction_create_eq, hmiss]
    simp only [List.isEmpty_nil, Bool.not_true, Bool.false_eq_true, if_false]
    unfold createEventRun
    rw [hStart]
    unfold parseDateTime
    dsimp only
    rw [if_neg hs, hjs, hpm, hint]
    rfl
  · intro env now userId p store newId s hTitle hStart hs hjs hpm ham hint
    have hst : oStrFalsy p.startTime = false := by rw [hStart]; simpa [oStrFalsy] using hs
    have hmiss : validateParamsE ["title", "startTime"] p = [] := by
      simp [validateParamsE, paramFalsy, hTitle, hst]
    rw [handleEventAction_create_eq, hmiss]
    simp only [List.isEmpty_nil, Bool.not_true, Bool.false_eq_true, if_false]
    unfold createEventRun
    rw [hStart]
    unfold parseDateTime
    dsimp only
    rw [if_neg hs, hjs, hpm, ham, hint]
    rfl

/-- Concrete instantiations of the start-time rejection policy. -/
theorem create_event_start_time_rejection_policy_witness :
    parseDateTime envObjId 0 (some "soon") 99 = .datev (0 + hourMs)
    ∧ handleEventAction envObjId 0 "u" "create_event"
        { title := some "Call", startTime := some "pm" } [] "e9" =
        ([], .error "Invalid start time format") := by
  constructor
  · exact create_event_start_time_rejection_policy.1 envObjId 0 "soon" 99
      (by decide) rfl (by decide) (by decide)
  · exact create_event_start_time_rejection_policy.2.1 envObjId 0 "u"
      { title := some "Call", startTime := some "pm" } [] "e9" "pm"
      (by decide) rfl (by decide) rfl (by decide) rfl

/-- A stored event with a valid end time after its start time. -/
def eventC4 : Event := { id := "e1", user := "u", title := "Standup"
                         startTime := 1000, endTime := some 2000 }

/-- An update that moves only the start time past the stored end time. -/
def paramsC4 : Params := { eventId := some "e1", startTime := some "2090-01-01" }

/-- A runtime in which that start-time string parses to 5000. -/
def envC4 : JsEnv :=
  { envObjId with jsDate := fun s => if s = "2090-01-01" then some 5000 else none }

/-- The event stored after the update: end time before start time. -/
def eventC4post : Event := { eventC4 with startTime := 5000 }

/-- C4 (failing input): update_event that moves startTime past the stored
endTime succeeds, because update validation only runs on the updated
paths and endTime is not among them; the store then holds an event whose
end time is before its start time, violating the invariant the schema
validator documents. -/
theorem update_event_persists_end_before_start :
    (handleEventAction envC4 0 "u" "update_event" paramsC4 [eventC4] "x" =
      ([eventC4post], .ok { success := true, data := some eventC4post }))
    ∧ eventC4post.endTime = some 2000 ∧ (2000 : Int) < eventC4post.startTime := by
  refine ⟨by decide, by decide, by decide⟩

/-! ## Invoice domain (invoiceActions.js Xero variant, models/Invoice.js,
xeroService.js) -/

/-- A stored Invoice document (models/Invoice.js plus the fields the
handlers write through findOneAndUpdate). -/
structure Invoice where
  id : String
  user : String
  clientName : String
  amount : Int
  description : String := ""
  tasks : List String := []
  items : List LineItem := []
  taxRate : Int := 0
  date : Int
  dueDate : Int
  status : String := "Pending"
  paidDate : Option Int := none
  invoiceNumber : Option String := none
  xeroInvoiceId : Option String := none
  xeroReference : Option String := none
  xeroStatus : Option String := none
  xeroSyncError : Option String := none
  xeroSyncErrorDetails : Option String := none
  lastSent : Option Int := none
  sentTo : Option String := none
  createdAt : Int := 0
  deriving Repr, DecidableEq

/-- First element of a `.sort({createdAt: -1})` query: the match with the
greatest createdAt (earlier-listed wins ties, as in a stable sort). -/
def mostRecent (l : List Invoice) : Option Invoice :=
  l.foldl (fun acc i =>
    match acc with
    | none => some i
    | some j => if i.createdAt > j.createdAt then some i else some j) none

/-- The client-name fallback of findInvoice: case-insensitive partial
match on clientName, most recent first. -/
def findInvoiceByName (store : List Invoice) (userId : String) (ident : String) :
    Option Invoice :=
  mostRecent (store.filter (fun i =>
    jsIncludes (jsLower i.clientName) (jsLower ident) && i.user == userId))

/-- The date stage of findInvoice: when the identifier parses as a date,
match it against date or dueDate; fall through to the client-name stage
otherwise or when no match. -/
def findInvoiceByDate (env : JsEnv) (store : List Invoice) (userId : String)
    (ident : String) : Option Invoice :=
  match env.jsDate ident with
  | some d =>
    match mostRecent (store.filter (fun i =>
        (i.date == d || i.dueDate == d) && i.user == userId)) with
    | some i => some i
    | none => findInvoiceByName store userId ident
  | none => findInvoiceByName store userId ident

/-- findInvoice of invoiceActions.js: ObjectId lookup, else amount match,
else date match, else client-name partial match. -/
def findInvoice (env : JsEnv) (store : List Invoice) (userId : String)
    (identifier : Option String) : Option Invoice :=
  match identifier with
  | none => none
  | some ident =>
    if ident = "" then none
    else if env.isObjectId ident then
      store.find? (fun i => i.id == ident && i.user == userId)
    else
      match env.amountMatch ident with
      | some amt =>
        match mostRecent (store.filter (fun i => i.amount == amt && i.user == userId)) with
        | some i => some i
        | none => findInvoiceByDate env store userId ident
      | none => findInvoiceByDate env store userId ident

/-- Required-field table of handleInvoiceAction. -/
def invoiceRequiredFields : String → List String
  | "create_invoice" => ["clientName", "amount"]
  | "update_invoice" => ["invoiceId"]
  | "mark_invoice_paid" => ["invoiceId"]
  | "pay_invoice" => ["invoiceId"]
  | "send_invoice" => ["invoiceId", "email"]
  | "resend_invoice" => ["invoiceId"]
  | _ => []

/-- Alias normalization: pay_invoice is mark_invoice_paid, resend_invoice
is send_invoice. -/
def normalizeInvoiceAction (a : String) : String :=
  if a = "pay_invoice" then "mark_invoice_paid"
  else if a = "resend_invoice" then "send_invoice"
  else a

/-- Result of a successful Xero client call. -/
structure XeroInv where
  invoiceID : Option String := none
  reference : Option String := none
  status : Option String := none
  deriving Repr, DecidableEq

/-- A thrown Xero client error: its message and the JSON.stringify of the
code/status/response detail object. -/
structure XeroErr where
  message : String
  detailsJson : String
  deriving Repr, DecidableEq

/-- Outcomes of the external calls a single invoice action can make: the
globally connected Xero tenant, the three Xero operations, the email
sender and the PDF generator. Each call happens at most once per action. -/
structure InvoiceDeps where
  tenantId : Option String
  xeroCreateOutcome : Except XeroErr XeroInv
  xeroUpdateOutcome : Except XeroErr XeroInv
  xeroPayOutcome : Except XeroErr XeroInv
  emailOutcome : Except String String
  pdfOutcome : Except String Unit

/-- Result envelope of handleInvoiceAction; the catch rethrows, so thrown
errors escape as `Except.error` while the store keeps the mutations made
before the throw. -/
structure InvEnvelope where
  success : Bool
  data : Option Invoice := none
  missingFields : List String := []
  error : Option String := none
  emailStatus : Option String := none
  xeroInvoice : Option XeroInv := none
  deriving Repr, DecidableEq

/-- JS `a.message || fallback`. -/
def msgOr (m dflt : String) : String := if m = "" then dflt else m

/-- JS `params.email || params.sendEmail` (first truthy string). -/
def firstTruthy (a b : Option String) : Option String :=
  if oStrFalsy a then (if oStrFalsy b then none else b) else a

/-- Replace the invoice with the given id in the store (findOneAndUpdate
on `_id`; save hooks do not run on findOneAndUpdate). -/
def updateInvoiceStore (store : List Invoice) (id : String) (f : Invoice → Invoice) :
    List Invoice :=
  store.map (fun i => if i.id == id then f i else i)

/-- The pre('save') hook of models/Invoice.js, run by Invoice.create:
fill paidDate when Paid without one, then flip to Overdue when the due
date passed and the invoice is unpaid. -/
def invoicePreSave (now : Int) (i : Invoice) : Invoice :=
  let i1 := if i.status == "Paid" && i.paidDate.isNone then { i with paidDate := some now } else i
  if !(i1.status == "Paid") && decide (i1.dueDate < now) then { i1 with status := "Overdue" } else i1

/-- Invoice.create of create_invoice: build the document from params
(dates default to now and now+30d), run schema validation (non-negative
amount, trimmed required clientName, Date casts) and the pre-save hook. -/
def invoiceCreateDoc (env : JsEnv) (now : Int) (userId : String) (p : Params)
    (newId : String) : Except String Invoice :=
  let dateV : JsDateVal := match p.date with
    | some s => if s = "" then .datev now else
        (match env.jsDate s with | some d => .datev d | none => .invalid)
    | none => .datev now
  let dueV : JsDateVal := match p.dueDate with
    | some s => if s = "" then .datev (addDaysMs now 30) else
        (match env.jsDate s with | some d => .datev d | none => .invalid)
    | none => .datev (addDaysMs now 30)
  match dateV, dueV with
  | .datev d, .datev dd =>
    if p.amount.getD 0 < 0 then .error "Amount cannot be negative"
    else if jsTrim (p.clientName.getD "") = "" then .error "Please provide client name"
    else .ok (invoicePreSave now
      { id := newId, user := userId
        clientName := jsTrim (p.clientName.getD "")
        amount := p.amount.getD 0
        description := p.description.getD ""
        tasks := p.tasks.getD []
        items := p.items.getD []
        taxRate := p.taxRate.getD 0
        date := d, dueDate := dd
        status := "Pending"
        invoiceNumber := match p.invoiceNumber with
          | some s => if s = "" then none else some s
          | none => none
        createdAt := now })
  | _, _ => .error "Invoice validation failed: Cast to Date failed"

/-- The create_invoice case: local create first, then best-effort Xero
sync when a tenant is connected (failure annotates xeroSyncError and
details on the local record), then optional email delivery (the payload
sent to the Xero client is built from params and does not influence the
modelled outcome). -/
def createInvoiceRun (env : JsEnv) (deps : InvoiceDeps) (now : Int) (userId : String)
    (p : Params) (store : List Invoice) (newId : String) :
    List Invoice × Except String InvEnvelope :=
  match invoiceCreateDoc env now userId p newId with
  | .error m => (store, .error m)
  | .ok inv0 =>
    let store1 := store ++ [inv0]
    let afterXero : List Invoice × Invoice × Option XeroInv :=
      match deps.tenantId with
      | some _ =>
        match deps.xeroCreateOutcome with
        | .ok xr =>
          match xr.invoiceID with
          | some _ =>
            let inv1 := { inv0 with
                          xeroInvoiceId := xr.invoiceID
                          xeroReference := xr.reference
                          xeroStatus := xr.status }
            (updateInvoiceStore store1 inv0.id (fun _ => inv1), inv1, some xr)
          | none => (store1, inv0, some xr)
        | .error e =>
          let inv1 := { inv0 with
                        xeroSyncError := some (msgOr e.message "Failed to sync with Xero")
                        xeroSyncErrorDetails := some e.detailsJson }
          (updateInvoiceStore store1 inv0.id (fun _ => inv1), inv1, none)
      | none => (store1, inv0, none)
    let store2 := afterXero.1
    let inv2 := afterXero.2.1
    let xeroRes := afterXero.2.2
    match firstTruthy p.email p.sendEmail with
    | some addr =>
      match deps.emailOutcome with
      | .error m => (store2, .error m)
      | .ok r =>
        let inv3 := { inv2 with
                      lastSent := some now
                      sentTo := some addr
                      status := if inv2.status = "Draft" then "Pending" else inv2.status }
        (updateInvoiceStore store2 inv2.id (fun _ => inv3),
         .ok { success := true, data := some inv3
               emailStatus := some r, xeroInvoice := xeroRes })
    | none =>
      (store2, .ok { success := true, data := some inv2, xeroInvoice := xeroRes })

/-- The date entry of update_invoice's updateFields. -/
def updateInvoiceDate (env : JsEnv) (p : Params) : Except String (Option Int) :=
  if oStrFalsy p.date then .ok none
  else
    match env.jsDate (p.date.getD "") with
    | some d => .ok (some d)
    | none => .error "Invalid date format"

/-- The dueDate entry of update_invoice's updateFields. -/
def updateInvoiceDue (env : JsEnv) (p : Params) : Except String (Option Int) :=
  if oStrFalsy p.dueDate then .ok none
  else
    match env.jsDate (p.dueDate.getD "") with
    | some d => .ok (some d)
    | none => .error "Invalid due date format"

/-- Apply update_invoice's updateFields through findOneAndUpdate. -/
def applyInvoiceUpdate (p : Params) (dU dduU : Option Int) (i : Invoice) : Invoice :=
  { i with
    clientName := match p.clientName with
      | some s => if s = "" then i.clientName else s
      | none => i.clientName
    amount := match p.amount with
      | some a => if a = 0 then i.amount else a
      | none => i.amount
    description := p.description.getD i.description
    date := dU.getD i.date
    dueDate := dduU.getD i.dueDate
    status := match p.status with
      | some s =>
        if s = "" then i.status
        else if ["Pending", "Paid", "Overdue"].contains s then s else "Pending"
      | none => i.status
    invoiceNumber := match p.invoiceNumber with
      | some s => some s
      | none => i.invoiceNumber
    items := p.items.getD i.items }

/-- The update_invoice case: resolve, build and validate updateFields,
apply, then best-effort Xero update when a tenant is connected and the
stored invoice has a Xero id, then optional email delivery. -/
def updateInvoiceRun (env : JsEnv) (deps : InvoiceDeps) (now : Int) (userId : String)
    (p : Params) (store : List Invoice) : List Invoice × Except String InvEnvelope :=
  match findInvoice env store userId p.invoiceId with
  | none => (store, .error "Invoice not found or you don't have permission to update it")
  | some inv =>
    match updateInvoiceDate env p with
    | .error m => (store, .error m)
    | .ok dU =>
      match updateInvoiceDue env p with
      | .error m => (store, .error m)
      | .ok dduU =>
        -- runValidators: a truthy negative amount fails the schema minimum
        if (match p.amount with | some a => decide (a < 0) | none => false) then
          (store, .error "Amount cannot be negative")
        else
          let inv1 := applyInvoiceUpdate p dU dduU inv
          let store1 := updateInvoiceStore store inv.id (fun _ => inv1)
          let afterXero : List Invoice × Invoice × Option XeroInv :=
            if deps.tenantId.isSome && inv.xeroInvoiceId.isSome then
              match deps.xeroUpdateOutcome with
              | .ok xr =>
                if xr.status ≠ inv.xeroStatus then
                  let inv2 := { inv1 with xeroStatus := xr.status }
                  (updateInvoiceStore store1 inv.id (fun _ => inv2), inv2, some xr)
                else (store1, inv1, some xr)
              | .error e =>
                let inv2 := { inv1 with
                              xeroSyncError := some (msgOr e.message "Failed to sync update with Xero")
                              xeroSyncErrorDetails := some e.detailsJson }
                (updateInvoiceStore store1 inv.id (fun _ => inv2), inv2, none)
            else (store1, inv1, none)
          let store2 := afterXero.1
          let inv2 := afterXero.2.1
          let xeroRes := afterXero.2.2
          match firstTruthy p.email p.sendEmail with
          | some addr =>
            match deps.emailOutcome with
            | .error m => (store2, .error m)
            | .ok r =>
              let inv3 := { inv2 with lastSent := some now, sentTo := some addr }
              (updateInvoiceStore store2 inv2.id (fun _ => inv3),
               .ok { success := true, data := some inv3
                     emailStatus := some r, xeroInvoice := xeroRes })
          | none =>
            (store2, .ok { success := true, data := some inv2, xeroInvoice := xeroRes })

/-- The Xero stage of mark_invoice_paid: when a tenant is connected and
the resolved invoice has a Xero id, the payment is mirrored; a PAID
result records the Xero status, a throw annotates the sync error. -/
def markPaidXero (deps : InvoiceDeps) (inv inv1 : Invoice) (store1 : List Invoice) :
    List Invoice × Invoice × Option XeroInv :=
  if deps.tenantId.isSome && inv.xeroInvoiceId.isSome then
    match deps.xeroPayOutcome with
    | .ok xr =>
      if xr.status = some "PAID" then
        let inv2 := { inv1 with xeroStatus := xr.status }
        (updateInvoiceStore store1 inv.id (fun _ => inv2), inv2, some xr)
      else (store1, inv1, some xr)
    | .error e =>
      let inv2 := { inv1 with
                    xeroSyncError := some (msgOr e.message "Failed to sync payment with Xero")
                    xeroSyncErrorDetails := some e.detailsJson }
      (updateInvoiceStore store1 inv.id (fun _ => inv2), inv2, none)
  else (store1, inv1, none)

/-- The confirmation-email tail of mark_invoice_paid: it sends at most an
email and never touches the stored invoice. -/
def invoiceEmailTail (deps : InvoiceDeps) (p : Params) (store2 : List Invoice)
    (inv2 : Invoice) (xeroRes : Option XeroInv) :
    List Invoice × Except String InvEnvelope :=
  match firstTruthy p.email p.sendEmail with
  | some _ =>
    match deps.emailOutcome with
    | .error m => (store2, .error m)
    | .ok r =>
      (store2, .ok { success := true, data := some inv2
                     emailStatus := some r, xeroInvoice := xeroRes })
  | none =>
    (store2, .ok { success := true, data := some inv2, xeroInvoice := xeroRes })

/-- The mark_invoice_paid case: resolve, stamp status Paid and
paidDate = now while writing dueDate back unchanged, then the best-effort
Xero stage, then the optional confirmation email. -/
def markInvoicePaidRun (env : JsEnv) (deps : InvoiceDeps) (now : Int) (userId : String)
    (p : Params) (store : List Invoice) : List Invoice × Except String InvEnvelope :=
  match findInvoice env store userId p.invoiceId with
  | none => (store, .error "Invoice not found or you don't have permission to update it")
  | some inv =>
    let inv1 := { inv with status := "Paid", paidDate := some now, dueDate := inv.dueDate }
    let s := markPaidXero deps inv inv1 (updateInvoiceStore store inv.id (fun _ => inv1))
    invoiceEmailTail deps p s.1 s.2.1 s.2.2

/-- The send_invoice case: resolve, render the PDF and send the email
(any failure in that try block is rethrown as a fixed message), then
record lastSent/sentTo. -/
def sendInvoiceRun (env : JsEnv) (deps : InvoiceDeps) (now : Int) (userId : String)
    (p : Params) (store : List Invoice) : List Invoice × Except String InvEnvelope :=
  match findInvoice env store userId p.invoiceId with
  | none => (store, .error "Invoice not found or you don't have permission to access it")
  | some inv =>
    match deps.pdfOutcome with
    | .error _ => (store, .error "Failed to send invoice email")
    | .ok _ =>
      match deps.emailOutcome with
      | .error _ => (store, .error "Failed to send invoice email")
      | .ok r =>
        let inv1 := { inv with
                      lastSent := some now
                      sentTo := p.email
                      status := if inv.status = "Draft" then "Pending" else inv.status }
        (updateInvoiceStore store inv.id (fun _ => inv1),
         .ok { success := true, data := some inv1, emailStatus := some r })

/-- handleInvoiceAction of invoiceActions.js: normalize the action name,
check required fields, then the switch; the default case throws with the
original (unnormalized) action name, and the catch rethrows. -/
def handleInvoiceAction (env : JsEnv) (deps : InvoiceDeps) (now : Int) (userId : String)
    (actionType : String) (p : Params) (store : List Invoice) (newId : String) :
    List Invoice × Except String InvEnvelope :=
  let norm := normalizeInvoiceAction actionType
  let missing := validateParamsTI (invoiceRequiredFields norm) p
  if !missing.isEmpty then
    (store, .ok { success := false, missingFields := missing
                  error := some ("Missing required fields: " ++ String.intercalate ", " missing) })
  else if norm = "create_invoice" then createInvoiceRun env deps now userId p store newId
  else if norm = "update_invoice" then updateInvoiceRun env deps now userId p store
  else if norm = "mark_invoice_paid" then markInvoicePaidRun env deps now userId p store
  else if norm = "send_invoice" then sendInvoiceRun env deps now userId p store
  else (store, .error ("Unknown action type: " ++ actionType))

/-! ## Router (baseActions.js) -/

/-- The three domain stores. -/
structure Stores where
  tasks : List Task
  events : List Event
  invoices : List Invoice
  deriving Repr, DecidableEq

/-- The reply of handleActionRequest: a domain envelope passed through,
or the catch envelope {success:false, error}. -/
inductive RouterReply where
  | task : TaskEnvelope → RouterReply
  | event : EventEnvelope → RouterReply
  | invoice : InvEnvelope → RouterReply
  | failure : String → RouterReply
  deriving Repr, DecidableEq

/-- The task action names routed to the task handler. -/
def taskActionNames : List String :=
  ["create_task", "update_task", "complete_task", "uncomplete_task", "reopen_task",
   "fetch_tasks"]

/-- The invoice action names routed to the invoice handler. -/
def invoiceActionNames : List String :=
  ["create_invoice", "update_invoice", "mark_invoice_paid", "pay_invoice", "send_invoice",
   "resend_invoice", "fetch_invoices"]

/-- The event action names routed to the event handler. -/
def eventActionNames : List String :=
  ["create_event", "update_event", "cancel_event", "delete_event", "fetch_events"]

/-- handleActionRequest of baseActions.js: route by action name to the
domain handler; any thrown error is caught and becomes the
{success:false, error} envelope. -/
def handleActionRequest (env : JsEnv) (deps : InvoiceDeps) (now : Int) (userId : String)
    (actionType : String) (p : Params) (st : Stores) (newId : String) :
    Stores × RouterReply :=
  if taskActionNames.contains actionType then
    let r := handleTaskAction env now userId actionType p st.tasks newId
    ({ st with tasks := r.1 }, .task r.2)
  else if invoiceActionNames.contains actionType then
    match handleInvoiceAction env deps now userId actionType p st.invoices newId with
    | (is, .ok envl) => ({ st with invoices := is }, .invoice envl)
    | (is, .error m) => ({ st with invoices := is }, .failure m)
  else if eventActionNames.contains actionType then
    match handleEventAction env now userId actionType p st.events newId with
    | (es, .ok envl) => ({ st with events := es }, .event envl)
    | (es, .error m) => ({ st with events := es }, .failure m)
  else (st, .failure ("Unknown action type: " ++ actionType))

/-- C9: dispatching fetch_invoices routes it to the invoice handler,
whose switch has no case for it, so its default branch throws and the
router catch converts the throw into the failure envelope
success:false with error Unknown action type: fetch_invoices. -/
theorem fetch_invoices_unknown_action (env : JsEnv) (deps : InvoiceDeps) (now : Int)
    (userId : String) (p : Params) (st : Stores) (newId : String) :
    handleActionRequest env deps now userId "fetch_invoices" p st newId =
      (st, .failure "Unknown action type: fetch_invoices") := rfl

/-- Unfolding of the invoice dispatcher at the literal create_invoice
action. -/
theorem handleInvoiceAction_create_eq (env : JsEnv) (deps : InvoiceDeps) (now : Int)
    (userId : String) (p : Params) (store : List Invoice) (newId : String) :
    handleInvoiceAction env deps now userId "create_invoice" p store newId =
      (if !(validateParamsTI ["clientName", "amount"] p).isEmpty then
        (store, .ok { success := false
                      missingFields := validateParamsTI ["clientName", "amount"] p
                      error := some ("Missing required fields: " ++
                        String.intercalate ", " (validateParamsTI ["clientName", "amount"] p)) })
      else createInvoiceRun env deps now userId p store newId) := rfl

/-- Unfolding of the invoice dispatcher at the literal mark_invoice_paid
action. -/
theorem handleInvoiceAction_markPaid_eq (env : JsEnv) (deps : InvoiceDeps) (now : Int)
    (userId : String) (p : Params) (store : List Invoice) (newId : String) :
    handleInvoiceAction env deps now userId "mark_invoice_paid" p store newId =
      (if !(validateParamsTI ["invoiceId"] p).isEmpty then
        (store, .ok { success := false
                      missingFields := validateParamsTI ["invoiceId"] p
                      error := some ("Missing required fields: " ++
                        String.intercalate ", " (validateParamsTI ["invoiceId"] p)) })
      else markInvoicePaidRun env deps now userId p store) := rfl

/-- Unfolding of the invoice dispatcher at the literal pay_invoice alias:
it normalizes to mark_invoice_paid. -/
theorem handleInvoiceAction_pay_eq (env : JsEnv) (deps : InvoiceDeps) (now : Int)
    (userId : String) (p : Params) (store : List Invoice) (newId : String) :
    handleInvoiceAction env deps now userId "pay_invoice" p store newId =
      (if !(validateParamsTI ["invoiceId"] p).isEmpty then
        (store, .ok { success := false
                      missingFields := validateParamsTI ["invoiceId"] p
                      error := some ("Missing required fields: " ++
                        String.intercalate ", " (validateParamsTI ["invoiceId"] p)) })
      else markInvoicePaidRun env deps now userId p store) := rfl

/-- invoicePreSave never changes the id. -/
theorem invoicePreSave_id (now : Int) (i : Invoice) : (invoicePreSave now i).id = i.id := by
  unfold invoicePreSave
  dsimp only
  split <;> split <;> rfl

/-- The invoice created by invoiceCreateDoc carries the fresh id. -/
theorem invoiceCreateDoc_id (env : JsEnv) (now : Int) (userId : String) (p : Params)
    (newId : String) (inv0 : Invoice)
    (h : invoiceCreateDoc env now userId p newId = .ok inv0) : inv0.id = newId := by
  unfold invoiceCreateDoc at h
  dsimp only at h
  split at h
  · split at h
    · cases h
    · split at h
      · cases h
      · injection h with h2
        subst h2
        rw [invoicePreSave_id]
  · cases h

/-- Updating the freshly appended invoice rewrites only it when its id is
fresh for the rest of the store. -/
theorem updateInvoiceStore_append (store : List Invoice) (inv : Invoice)
    (f : Invoice → Invoice)
    (hFresh : ∀ i ∈ store, (i.id == inv.id) = false) :
    updateInvoiceStore (store ++ [inv]) inv.id f = store ++ [f inv] := by
  unfold updateInvoiceStore
  rw [List.map_append]
  congr 1
  · conv_rhs => rw [← List.map_id store]
    apply List.map_congr_left
    intro i hi
    simp [hFresh i hi]
  · simp

/-- Two successive constant findOneAndUpdate writes to the same id
collapse to the last one when the first value keeps the id. -/
theorem updateInvoiceStore_const_twice (s : List Invoice) (idv : String) (v w : Invoice)
    (hv : (v.id == idv) = true) :
    updateInvoiceStore (updateInvoiceStore s idv (fun _ => v)) idv (fun _ => w) =
      updateInvoiceStore s idv (fun _ => w) := by
  unfold updateInvoiceStore
  rw [List.map_map]
  apply List.map_congr_left
  intro i _
  by_cases hi : (i.id == idv) = true
  · simp [Function.comp, hi, hv]
  · simp [Function.comp, hi]

/-- C2: when the local create succeeds, a Xero tenant is connected and
the Xero create call throws, create_invoice still keeps the local
invoice, annotates it with xeroSyncError carrying the failure message
(plus the serialized details) and returns success:true with that
invoice; the local mutation is not rolled back. Stated for turns that do
not also request email delivery, an independent later step. -/
theorem create_invoice_xero_failure_is_annotated_success
    (env : JsEnv) (deps : InvoiceDeps) (now : Int) (userId : String) (p : Params)
    (store : List Invoice) (newId : String) (inv0 : Invoice) (tname : String) (e : XeroErr)
    (hV : validateParamsTI ["clientName", "amount"] p = [])
    (hC : invoiceCreateDoc env now userId p newId = .ok inv0)
    (hT : deps.tenantId = some tname)
    (hX : deps.xeroCreateOutcome = .error e)
    (hMsg : e.message ≠ "")
    (hEmail : p.email = none ∧ p.sendEmail = none)
    (hFresh : ∀ i ∈ store, (i.id == newId) = false) :
    handleInvoiceAction env deps now userId "create_invoice" p store newId =
      (store ++ [{ inv0 with
                   xeroSyncError := some e.message
                   xeroSyncErrorDetails := some e.detailsJson }],
       .ok { success := true
             data := some { inv0 with
                            xeroSyncError := some e.message
                            xeroSyncErrorDetails := some e.detailsJson } }) := by
  have hid : inv0.id = newId := invoiceCreateDoc_id env now userId p newId inv0 hC
  have hmsg : msgOr e.message "Failed to sync with Xero" = e.message := by
    unfold msgOr
    rw [if_neg hMsg]
  rw [handleInvoiceAction_create_eq, hV]
  simp only [List.isEmpty_nil, Bool.not_true, Bool.false_eq_true, if_false]
  unfold createInvoiceRun
  rw [hC]
  dsimp only
  rw [hT, hX]
  dsimp only
  have hft : firstTruthy p.email p.sendEmail = none := by
    rw [hEmail.1, hEmail.2]
    rfl
  rw [hft]
  dsimp only
  rw [hmsg]
  rw [updateInvoiceStore_append store inv0 _ (fun i hi => by rw [hid]; exact hFresh i hi)]

/-- Concrete create_invoice request for the Xero-failure scenario. -/
def paramsC2 : Params := { clientName := some "Acme", amount := some 250 }

/-- The dependency record in which the Xero create call throws. -/
def depsC2 : InvoiceDeps :=
  { tenantId := some "tenant1"
    xeroCreateOutcome := .error { message := "Xero down", detailsJson := "details" }
    xeroUpdateOutcome := .ok {}
    xeroPayOutcome := .ok {}
    emailOutcome := .ok "sent"
    pdfOutcome := .ok () }

/-- The locally created invoice for that request at time 0. -/
def invC2 : Invoice :=
  { id := "i1", user := "u", clientName := "Acme", amount := 250
    date := 0, dueDate := addDaysMs 0 30, createdAt := 0 }

/-- Concrete instantiation of the Xero-failure scenario. -/
theorem create_invoice_xero_failure_is_annotated_success_witness :
    handleInvoiceAction envObjId depsC2 0 "u" "create_invoice" paramsC2 [] "i1" =
      ([{ invC2 with
          xeroSyncError := some "Xero down"
          xeroSyncErrorDetails := some "details" }],
       .ok { success := true
             data := some { invC2 with
                            xeroSyncError := some "Xero down"
                            xeroSyncErrorDetails := some "details" } }) := by
  exact create_invoice_xero_failure_is_annotated_success envObjId depsC2 0 "u" paramsC2
    [] "i1" invC2 "tenant1" { message := "Xero down", detailsJson := "details" }
    (by decide) (by decide) rfl rfl (by decide) ⟨rfl, rfl⟩ (by intro i hi; cases hi)

/-- The store after markInvoicePaidRun is a single findOneAndUpdate of
the resolved invoice with a record that is Paid, stamped with paidDate
now and carries the old dueDate unchanged. -/
theorem markInvoicePaidRun_store (env : JsEnv) (deps : InvoiceDeps) (now : Int)
    (userId : String) (p : Params) (store : List Invoice) (inv : Invoice)
    (hFind : findInvoice env store userId p.invoiceId = some inv) :
    ∃ i2, (markInvoicePaidRun env deps now userId p store).1 =
        updateInvoiceStore store inv.id (fun _ => i2)
      ∧ i2.status = "Paid" ∧ i2.paidDate = some now ∧ i2.dueDate = inv.dueDate := by
  have hTail : ∀ deps2 p2 s2 i2 xr2, (invoiceEmailTail deps2 p2 s2 i2 xr2).1 = s2 := by
    intro deps2 p2 s2 i2 xr2
    unfold invoiceEmailTail
    cases firstTruthy p2.email p2.sendEmail with
    | some a => cases deps2.emailOutcome <;> rfl
    | none => rfl
  have hStage : ∀ (inv1 : Invoice), (inv1.id == inv.id) = true →
      ∃ i2, (markPaidXero deps inv inv1 (updateInvoiceStore store inv.id (fun _ => inv1))).1 =
          updateInvoiceStore store inv.id (fun _ => i2)
        ∧ (markPaidXero deps inv inv1 (updateInvoiceStore store inv.id (fun _ => inv1))).2.1 = i2
        ∧ i2.status = inv1.status ∧ i2.paidDate = inv1.paidDate ∧ i2.dueDate = inv1.dueDate := by
    intro inv1 h1
    unfold markPaidXero
    by_cases hx : (deps.tenantId.isSome && inv.xeroInvoiceId.isSome) = true
    · rw [if_pos hx]
      cases deps.xeroPayOutcome with
      | ok xr =>
        dsimp only
        by_cases hst : xr.status = some "PAID"
        · rw [if_pos hst]
          exact ⟨{ inv1 with xeroStatus := xr.status },
            updateInvoiceStore_const_twice store inv.id _ _ h1, rfl, rfl, rfl, rfl⟩
        · rw [if_neg hst]
          exact ⟨inv1, rfl, rfl, rfl, rfl, rfl⟩
      | error e =>
        dsimp only
        exact ⟨{ inv1 with
                 xeroSyncError := some (msgOr e.message "Failed to sync payment with Xero")
                 xeroSyncErrorDetails := some e.detailsJson },
          updateInvoiceStore_const_twice store inv.id _ _ h1, rfl, rfl, rfl, rfl⟩
    · rw [if_neg hx]
      exact ⟨inv1, rfl, rfl, rfl, rfl, rfl⟩
  unfold markInvoicePaidRun
  rw [hFind]
  dsimp only
  obtain ⟨i2, hs1, _, hstat, hpaid, hdue⟩ :=
    hStage { inv with status := "Paid", paidDate := some now, dueDate := inv.dueDate } (by simp)
  refine ⟨i2, ?_, hstat, hpaid, hdue⟩
  rw [hTail, hs1]

/-- C3: for every invoice resolved by mark_invoice_paid (also via the
pay_invoice alias), the store afterwards holds that invoice with status
Paid and paidDate stamped with the call time, while dueDate is written
back unchanged; this holds whatever the Xero and email outcomes are. -/
theorem mark_invoice_paid_stamps_and_preserves
    (env : JsEnv) (deps : InvoiceDeps) (now : Int) (userId : String) (p : Params)
    (store : List Invoice) (newId : String) (inv : Invoice) (a : String)
    (ha : a = "mark_invoice_paid" ∨ a = "pay_invoice")
    (hV : oStrBlank p.invoiceId = false)
    (hFind : findInvoice env store userId p.invoiceId = some inv) :
    ∃ i2, (handleInvoiceAction env deps now userId a p store newId).1 =
        updateInvoiceStore store inv.id (fun _ => i2)
      ∧ i2.status = "Paid" ∧ i2.paidDate = some now ∧ i2.dueDate = inv.dueDate := by
  have hmiss : validateParamsTI ["invoiceId"] p = [] := by
    simp [validateParamsTI, paramBlank, hV]
  have hrun : handleInvoiceAction env deps now userId a p store newId =
      markInvoicePaidRun env deps now userId p store := by
    rcases ha with h | h <;> subst h
    · rw [handleInvoiceAction_markPaid_eq, hmiss]
      simp
    · rw [handleInvoiceAction_pay_eq, hmiss]
      simp
  rw [hrun]
  exact markInvoicePaidRun_store env deps now userId p store inv hFind

/-- A pending invoice due in the future. -/
def invC3 : Invoice :=
  { id := "i1", user := "u", clientName := "Acme", amount := 250
    date := 0, dueDate := 9999999, createdAt := 0 }

/-- A mark_invoice_paid request for it. -/
def paramsC3 : Params := { invoiceId := some "i1" }

/-- The dependency record with no connected tenant. -/
def depsNone : InvoiceDeps :=
  { tenantId := none
    xeroCreateOutcome := .ok {}
    xeroUpdateOutcome := .ok {}
    xeroPayOutcome := .ok {}
    emailOutcome := .ok "sent"
    pdfOutcome := .ok () }

/-- Concrete instantiation of the mark_invoice_paid theorem via the
pay_invoice alias. -/
theorem mark_invoice_paid_stamps_and_preserves_witness :
    ∃ i2, (handleInvoiceAction envObjId depsNone 500 "u" "pay_invoice" paramsC3
        [invC3] "x").1 = updateInvoiceStore [invC3] invC3.id (fun _ => i2)
      ∧ i2.status = "Paid" ∧ i2.paidDate = some 500 ∧ i2.dueDate = invC3.dueDate := by
  exact mark_invoice_paid_stamps_and_preserves envObjId depsNone 500 "u" paramsC3
    [invC3] "x" invC3 "pay_invoice" (Or.inr rfl) (by decide) (by decide)

/-! ## Interpreter (openaiService.js generateAIResponse, dataService.js) -/

/-- A needsClarification object of the model's structured reply. -/
structure Clarification where
  field : String
  question : String
  options : Option (List String) := none
  deriving Repr, DecidableEq

/-- The parsed model reply: one JSON object with shape
action / params / response / needsClarification. -/
structure ParsedResponse where
  action : Option String := none
  params : Params := {}
  response : Option String := none
  needsClarification : Option Clarification := none
  deriving Repr, DecidableEq

/-- The Mongo sort key of getUserContextData's invoice query
sort of dueDate ascending then createdAt descending. -/
def invoiceCtxLE (a b : Invoice) : Bool :=
  decide (a.dueDate < b.dueDate) ||
    (a.dueDate == b.dueDate && decide (b.createdAt ≤ a.createdAt))

/-- Insert into a list sorted by the context key. -/
def insertInvoiceSorted (x : Invoice) : List Invoice → List Invoice
  | [] => [x]
  | y :: ys => if invoiceCtxLE x y then x :: y :: ys else y :: insertInvoiceSorted x ys

/-- Insertion sort by the context key: a stable model of the server-side
sort. -/
def sortInvoicesCtx (l : List Invoice) : List Invoice :=
  l.foldr insertInvoiceSorted []

/-- getUserContextData's invoice snapshot: the account's invoices sorted
by ascending dueDate with ties broken by most-recent createdAt, limited
to 20. formatDataForPrompt maps this list in order with
id = _id.toString(), so `formattedData.invoices.all[0]` corresponds to
the head of this list. -/
def contextInvoices (store : List Invoice) (userId : String) : List Invoice :=
  (sortInvoicesCtx (store.filter (fun i => i.user == userId))).take 20

/-- The history scan of extractEmailFromContext: from the latest message
backwards, the first message matching the email pattern. -/
def scanHistoryForEmail (env : JsEnv) (history : List String) : Option String :=
  history.reverse.findSome? env.emailMatch

/-- extractEmailFromContext of openaiService.js: the account's own email
first (when truthy), else the history scan. -/
def extractEmailFromContext (env : JsEnv) (userEmail : Option String)
    (history : List String) : Option String :=
  match userEmail with
  | some e => if e = "" then scanHistoryForEmail env history else some e
  | none => scanHistoryForEmail env history

/-- The send_invoice special-casing of generateAIResponse: fill a missing
email from context or throw; with neither invoiceId nor clientName, fill
invoiceId with the first invoice of the context snapshot or throw when
the account has none. -/
def repairSendInvoice (env : JsEnv) (userEmail : Option String) (history : List String)
    (ctx : List Invoice) (p : Params) : Except String Params :=
  let step1 : Except String Params :=
    if oStrFalsy p.email then
      match extractEmailFromContext env userEmail history with
      | some e => .ok { p with email := some e }
      | none =>
        .error "Email address is required to send invoice. Please provide recipient email address."
    else .ok p
  match step1 with
  | .error m => .error m
  | .ok p1 =>
    if oStrFalsy p1.invoiceId && oStrFalsy p1.clientName then
      match ctx.head? with
      | some invc => .ok { p1 with invoiceId := some invc.id }
      | none => .error "No invoices found to send."
    else .ok p1

/-- The numbered rendering of clarification options. -/
def numberedOptions (opts : List String) : String :=
  String.intercalate "\n" (opts.enum.map (fun pr => toString (pr.1 + 1) ++ ". " ++ pr.2))

/-- The clarification branch of generateAIResponse: the model response
string when truthy, else the fixed prompt with the question; options,
when present, are appended as a numbered list. -/
def clarificationReply (parsed : ParsedResponse) (c : Clarification) : String :=
  let base := match parsed.response with
    | some r => if r = "" then "I need more information: " ++ c.question else r
    | none => "I need more information: " ++ c.question
  match c.options with
  | some opts => base ++ "\n\nOptions:\n" ++ numberedOptions opts
  | none => base

/-- The pre-dispatch validation of generateAIResponse, skipped for any
action whose name contains fetch. -/
def preDispatchCheck (a : String) (p : Params) : Except String Unit :=
  if jsIncludes a "fetch" then .ok ()
  else if jsIncludes a "event" && oStrFalsy p.title && oStrFalsy p.eventId then
    .error "Event actions require either title or eventId"
  else if jsIncludes a "invoice" && oStrFalsy p.clientName && oStrFalsy p.invoiceId then
    .error "Invoice actions require either clientName or invoiceId"
  else if jsIncludes a "task" && oStrFalsy p.title && oStrFalsy p.taskId then
    .error "Task actions require either title or taskId"
  else .ok ()

/-- Success of a router reply. -/
def routerSuccess : RouterReply → Bool
  | .task e => e.success
  | .event e => e.success
  | .invoice e => e.success
  | .failure _ => false

/-- Error field of a router reply. -/
def routerError : RouterReply → Option String
  | .task e => e.error
  | .event e => e.error
  | .invoice e => e.error
  | .failure m => some m

/-- The outcome of one interpreted turn: the synthesized reply, whether
the dispatcher was invoked and its reply, and the resulting stores. -/
structure TurnResult where
  finalResponse : String
  dispatched : Bool
  reply : Option RouterReply
  stores : Stores
  deriving Repr, DecidableEq

/-- generateAIResponse of openaiService.js after a successful JSON parse
(the model call and message persistence sit outside this core):
needsClarification short-circuits without invoking the dispatcher;
otherwise a truthy non-none action is repaired (send_invoice), checked
pre-dispatch, dispatched, and a reply synthesized; a throw anywhere in
the block is caught into the apology reply carrying the error message.
The per-family success-confirmation templates are abbreviated to the
model-supplied response or a fixed fallback, which no claim inspects. -/
def processParsedResponse (env : JsEnv) (deps : InvoiceDeps) (now : Int) (userId : String)
    (userEmail : Option String) (history : List String) (parsed : ParsedResponse)
    (st : Stores) (newId : String) (aiRaw : String) : TurnResult :=
  match parsed.needsClarification with
  | some c =>
    { finalResponse := clarificationReply parsed c
      dispatched := false, reply := none, stores := st }
  | none =>
    if !(oStrFalsy parsed.action) && !(parsed.action.getD "" == "none") then
      let a := parsed.action.getD ""
      match (if a = "send_invoice" then
               repairSendInvoice env userEmail history (contextInvoices st.invoices userId)
                 parsed.params
             else .ok parsed.params) with
      | .error m =>
        { finalResponse :=
            "I encountered an issue processing your request. Please try again.\n\nError: " ++ m
          dispatched := false, reply := none, stores := st }
      | .ok p1 =>
        match preDispatchCheck a p1 with
        | .error m =>
          { finalResponse :=
              "I encountered an issue processing your request. Please try again.\n\nError: " ++ m
            dispatched := false, reply := none, stores := st }
        | .ok _ =>
          let r := handleActionRequest env deps now userId a p1 st newId
          if routerSuccess r.2 then
            { finalResponse := match parsed.response with
                | some s => if s = "" then "Action completed successfully." else s
                | none => "Action completed successfully."
              dispatched := true, reply := some r.2, stores := r.1 }
          else
            { finalResponse :=
                "I couldn\u0027t complete that action: " ++ (routerError r.2).getD "undefined"
              dispatched := true, reply := some r.2, stores := r.1 }
    else
      { finalResponse := match parsed.response with
          | some s => if s = "" then aiRaw else s
          | none => aiRaw
        dispatched := false, reply := none, stores := st }

/-- String append acts as list append on the character data. -/
theorem strData_append (s t : String) : (s ++ t).data = s.data ++ t.data := rfl

/-- A list starts with itself followed by anything. -/
theorem startsWithCL_append (sub post : List Char) :
    startsWithCL sub (sub ++ post) = true := by
  induction sub with
  | nil => rfl
  | cons a as ih => simp [startsWithCL, ih]

/-- A list contains any of its contiguous middles. -/
theorem hasSubCL_append (pre sub post : List Char) :
    hasSubCL sub (pre ++ (sub ++ post)) = true := by
  induction pre with
  | nil =>
    simp only [List.nil_append]
    cases hsp : sub ++ post with
    | nil =>
      have hsub : sub = [] := (List.append_eq_nil.mp hsp).1
      subst hsub
      rfl
    | cons b bs =>
      have h1 : startsWithCL sub (b :: bs) = true := by
        rw [← hsp]
        exact startsWithCL_append sub post
      simp [hasSubCL, h1]
  | cons a as ih =>
    simp [hasSubCL, ih]

/-- A string contains any of its contiguous middles. -/
theorem jsIncludes_middle (pre sub post : String) :
    jsIncludes (pre ++ sub ++ post) sub = true := by
  unfold jsIncludes
  have hd : (pre ++ sub ++ post).data = pre.data ++ (sub.data ++ post.data) := by
    rw [strData_append, strData_append, List.append_assoc]
  rw [hd]
  exact hasSubCL_append _ _ _

/-- A string contains its own suffix. -/
theorem jsIncludes_suffix (pre sub : String) : jsIncludes (pre ++ sub) sub = true := by
  unfold jsIncludes
  have hd : (pre ++ sub).data = pre.data ++ (sub.data ++ []) := by
    rw [strData_append, List.append_nil]
  rw [hd]
  exact hasSubCL_append _ _ _

/-- An empty set of stores. -/
def storesEmpty : Stores := { tasks := [], events := [], invoices := [] }

/-- A clarification request carrying a truthy model response string. -/
def parsedC6 : ParsedResponse :=
  { response := some "Okay"
    needsClarification := some { field := "email", question := "What email should I use?" } }

/-- C6 (counterexample): with needsClarification present and a truthy
model response string, the synthesized reply is that string; it does not
contain the literal clarification question (the dispatcher is still
never invoked). -/
theorem clarification_reply_can_omit_question :
    (processParsedResponse envObjId depsNone 0 "u" none [] parsedC6 storesEmpty "x" "raw"
      = { finalResponse := "Okay", dispatched := false, reply := none, stores := storesEmpty })
    ∧ jsIncludes "Okay" "What email should I use?" = false := by
  exact ⟨by decide, by decide⟩

/-- C6 (amended): with needsClarification present the dispatcher is never
invoked and the reply is the clarification reply; that reply contains the
literal question whenever the model supplied no (truthy) response string,
and it contains the numbered option list whenever options are offered. -/
theorem needsClarification_short_circuit :
    (∀ env deps now userId uE history parsed st newId aiRaw c,
      parsed.needsClarification = some c →
      processParsedResponse env deps now userId uE history parsed st newId aiRaw =
        { finalResponse := clarificationReply parsed c
          dispatched := false, reply := none, stores := st })
  ∧ (∀ (parsed : ParsedResponse) (c : Clarification), oStrFalsy parsed.response = true →
      jsIncludes (clarificationReply parsed c) c.question = true)
  ∧ (∀ (parsed : ParsedResponse) (c : Clarification) opts, c.options = some opts →
      jsIncludes (clarificationReply parsed c) (numberedOptions opts) = true) := by
  refine ⟨?_, ?_, ?_⟩
  · intro env deps now userId uE history parsed st newId aiRaw c h
    unfold processParsedResponse
    rw [h]
  · intro parsed c hresp
    unfold clarificationReply
    have hbase : (match parsed.response with
        | some r => if r = "" then "I need more information: " ++ c.question else r
        | none => "I need more information: " ++ c.question) =
        "I need more information: " ++ c.question := by
      cases hr : parsed.response with
      | none => rfl
      | some r =>
        rw [hr] at hresp
        simp only [oStrFalsy, decide_eq_true_eq] at hresp
        subst hresp
        rfl
    rw [hbase]
    cases c.options with
    | none =>
      dsimp only
      exact jsIncludes_suffix _ _
    | some opts =>
      dsimp only
      have h2 : "I need more information: " ++ c.question ++ "\n\nOptions:\n" ++
          numberedOptions opts =
          "I need more information: " ++ c.question ++
            ("\n\nOptions:\n" ++ numberedOptions opts) := by
        rw [String.append_assoc]
      rw [h2]
      exact jsIncludes_middle _ _ _
  · intro parsed c opts h
    unfold clarificationReply
    rw [h]
    dsimp only
    exact jsIncludes_suffix _ _

/-- A clarification with options and no model response string. -/
def clarC6 : Clarification :=
  { field := "email", question := "What email should I use?"
    options := some ["bob@example.com", "ann@example.com"] }

/-- The parsed reply carrying it. -/
def parsedC6b : ParsedResponse := { needsClarification := some clarC6 }

/-- Concrete instantiations of the clarification short-circuit. -/
theorem needsClarification_short_circuit_witness :
    (processParsedResponse envObjId depsNone 0 "u" none [] parsedC6b storesEmpty "x" "raw"
      = { finalResponse := clarificationReply parsedC6b clarC6
          dispatched := false, reply := none, stores := storesEmpty })
    ∧ jsIncludes (clarificationReply parsedC6b clarC6) "What email should I use?" = true
    ∧ jsIncludes (clarificationReply parsedC6b clarC6)
        (numberedOptions ["bob@example.com", "ann@example.com"]) = true := by
  refine ⟨?_, ?_, ?_⟩
  · exact needsClarification_short_circuit.1 envObjId depsNone 0 "u" none [] parsedC6b
      storesEmpty "x" "raw" clarC6 rfl
  · exact needsClarification_short_circuit.2.1 parsedC6b clarC6 rfl
  · exact needsClarification_short_circuit.2.2 parsedC6b clarC6
      ["bob@example.com", "ann@example.com"] rfl

/-- The context sort key is reflexive. -/
theorem invoiceCtxLE_refl (a : Invoice) : invoiceCtxLE a a = true := by
  unfold invoiceCtxLE
  simp

/-- The context sort key is total. -/
theorem invoiceCtxLE_total (a b : Invoice) :
    invoiceCtxLE a b = true ∨ invoiceCtxLE b a = true := by
  unfold invoiceCtxLE
  rcases lt_trichotomy a.dueDate b.dueDate with h | h | h
  · left; simp [h]
  · rcases le_total b.createdAt a.createdAt with hc | hc
    · left; simp [h, hc]
    · right; simp [h.symm, hc]
  · right; simp [h]

/-- The context sort key is transitive. -/
theorem invoiceCtxLE_trans (a b c : Invoice) (hab : invoiceCtxLE a b = true)
    (hbc : invoiceCtxLE b c = true) : invoiceCtxLE a c = true := by
  unfold invoiceCtxLE at *
  simp only [Bool.or_eq_true, Bool.and_eq_true, decide_eq_true_eq, beq_iff_eq] at *
  rcases hab with h1 | ⟨h1, h2⟩ <;> rcases hbc with h3 | ⟨h3, h4⟩
  · left; exact lt_trans h1 h3
  · left; exact h3 ▸ h1
  · left; exact h1 ▸ h3
  · right; exact ⟨h1.trans h3, le_trans h4 h2⟩

/-- Sortedness by the context key. -/
def CtxSorted (l : List Invoice) : Prop :=
  l.Pairwise (fun a b => invoiceCtxLE a b = true)

/-- Members of an insertion are the inserted element or old members. -/
theorem insertInvoiceSorted_mem (x : Invoice) (s : List Invoice) (z : Invoice)
    (hz : z ∈ insertInvoiceSorted x s) : z = x ∨ z ∈ s := by
  induction s with
  | nil => simpa [insertInvoiceSorted] using hz
  | cons y ys ih =>
    unfold insertInvoiceSorted at hz
    split at hz
    · rcases List.mem_cons.mp hz with h | h
      · exact Or.inl h
      · exact Or.inr h
    · rcases List.mem_cons.mp hz with h | h
      · exact Or.inr (h ▸ List.mem_cons_self _ _)
      · rcases ih h with h' | h'
        · exact Or.inl h'
        · exact Or.inr (List.mem_cons_of_mem _ h')

/-- Insertion preserves sortedness. -/
theorem insertInvoiceSorted_pairwise (x : Invoice) (s : List Invoice)
    (hs : CtxSorted s) : CtxSorted (insertInvoiceSorted x s) := by
  induction s with
  | nil => simp [insertInvoiceSorted, CtxSorted]
  | cons y ys ih =>
    rcases List.pairwise_cons.mp hs with ⟨hy, hys⟩
    unfold insertInvoiceSorted
    by_cases hxy : invoiceCtxLE x y = true
    · rw [if_pos hxy]
      refine List.pairwise_cons.mpr ⟨?_, hs⟩
      intro z hz
      rcases List.mem_cons.mp hz with h | h
      · exact h ▸ hxy
      · exact invoiceCtxLE_trans x y z hxy (hy z h)
    · rw [if_neg hxy]
      refine List.pairwise_cons.mpr ⟨?_, ih hys⟩
      intro z hz
      rcases insertInvoiceSorted_mem x ys z hz with h | h
      · subst h
        rcases invoiceCtxLE_total z y with h' | h'
        · exact absurd h' hxy
        · exact h'
      · exact hy z h

/-- The context sort produces a sorted list. -/
theorem sortInvoicesCtx_pairwise (l : List Invoice) : CtxSorted (sortInvoicesCtx l) := by
  induction l with
  | nil => simp [sortInvoicesCtx, CtxSorted]
  | cons a as ih => exact insertInvoiceSorted_pairwise a (sortInvoicesCtx as) ih

/-- The head of the context snapshot is minimal for the context key: it
has the earliest due date (ties broken by most-recent createdAt). -/
theorem contextInvoices_head_min (store : List Invoice) (u : String) (i : Invoice)
    (rest : List Invoice) (h : contextInvoices store u = i :: rest) :
    ∀ j ∈ contextInvoices store u, invoiceCtxLE i j = true := by
  have hp : CtxSorted (contextInvoices store u) := by
    unfold contextInvoices
    exact List.Pairwise.sublist (List.take_sublist _ _)
      (sortInvoicesCtx_pairwise (store.filter (fun i => i.user == u)))
  intro j hj
  rw [h] at hj hp
  rcases List.mem_cons.mp hj with h' | h'
  · exact h' ▸ invoiceCtxLE_refl i
  · exact (List.pairwise_cons.mp hp).1 j h'

/-- An invoice issued later but due later. -/
def invA : Invoice := { id := "A", user := "u", clientName := "Acme", amount := 5
                        date := 10, dueDate := 100, createdAt := 10 }

/-- An invoice issued earlier but due sooner. -/
def invB : Invoice := { id := "B", user := "u", clientName := "Bolt", amount := 7
                        date := 5, dueDate := 50, createdAt := 5 }

/-- Modelled from the spec: the selection rule the spec claims, written
from its words for comparison with the code's choice — the account's
single most-recently-issued invoice (latest issue date, ties broken by
latest createdAt). -/
def mostRecentlyIssued (store : List Invoice) (userId : String) : Option Invoice :=
  (store.filter (fun i => i.user == userId)).foldl (fun acc i =>
    match acc with
    | none => some i
    | some j =>
      if decide (j.date < i.date) || (i.date == j.date && decide (j.createdAt < i.createdAt))
      then some i else some j) none

/-- C5 (counterexample): with no email, no invoiceId and no clientName,
send_invoice defaults to the head of the context snapshot — the invoice
with the earliest due date (B) — not the most-recently-issued one (A). -/
theorem send_invoice_default_not_most_recently_issued :
    repairSendInvoice envObjId (some "u@e.x") [] (contextInvoices [invA, invB] "u")
      ({} : Params) = .ok { email := some "u@e.x", invoiceId := some "B" }
    ∧ mostRecentlyIssued [invA, invB] "u" = some invA
    ∧ invA.id = "A" ∧ ("B" : String) ≠ "A" := by
  refine ⟨by decide, by decide, rfl, by decide⟩

/-- C5 (amended): for send_invoice with no email parameter, the email is
resolved from the account's own email, else by scanning the history in
reverse chronological order for the latest message matching the email
pattern, else the handler throws; with neither invoiceId nor clientName,
it defaults to the head of the context snapshot — the account invoice
with the earliest due date (ties by most-recent createdAt, limited
to 20) — and throws when the account has no invoices. -/
theorem send_invoice_email_and_default_resolution :
    (∀ env e history, e ≠ "" → extractEmailFromContext env (some e) history = some e)
  ∧ (∀ env history m, scanHistoryForEmail env (history ++ [m]) =
      (match env.emailMatch m with
       | some e => some e
       | none => scanHistoryForEmail env history))
  ∧ (∀ env uE history ctx p, oStrFalsy p.email = true →
      extractEmailFromContext env uE history = none →
      repairSendInvoice env uE history ctx p =
        .error "Email address is required to send invoice. Please provide recipient email address.")
  ∧ (∀ env uE history st u p i rest, oStrFalsy p.email = false →
      oStrFalsy p.invoiceId = true → oStrFalsy p.clientName = true →
      contextInvoices st u = i :: rest →
      repairSendInvoice env uE history (contextInvoices st u) p =
        .ok { p with invoiceId := some i.id }
      ∧ ∀ j ∈ contextInvoices st u, invoiceCtxLE i j = true)
  ∧ (∀ env uE history p, oStrFalsy p.email = false →
      oStrFalsy p.invoiceId = true → oStrFalsy p.clientName = true →
      repairSendInvoice env uE history [] p = .error "No invoices found to send.") := by
  refine ⟨?_, ?_, ?_, ?_, ?_⟩
  · intro env e history he
    unfold extractEmailFromContext
    dsimp only
    rw [if_neg he]
  · intro env history m
    unfold scanHistoryForEmail
    rw [List.reverse_append, List.reverse_singleton, List.singleton_append,
      List.findSome?_cons]
    cases env.emailMatch m <;> rfl
  · intro env uE history ctx p hpe hext
    unfold repairSendInvoice
    rw [hpe, hext]
    simp
  · intro env uE history st u p i rest hpe hinv hcli hctx
    constructor
    · unfold repairSendInvoice
      rw [hpe]
      simp only [Bool.false_eq_true, if_false]
      rw [hinv, hcli, hctx]
      simp
    · exact contextInvoices_head_min st u i rest hctx
  · intro env uE history p hpe hinv hcli
    unfold repairSendInvoice
    rw [hpe]
    simp only [Bool.false_eq_true, if_false]
    rw [hinv, hcli]
    simp

/-- Concrete instantiations of the send_invoice resolution theorem. -/
theorem send_invoice_email_and_default_resolution_witness :
    extractEmailFromContext envObjId (some "bob@example.com") [] = some "bob@example.com"
    ∧ (repairSendInvoice envObjId none [] (contextInvoices [invA, invB] "u")
        { email := some "c@d.e" } =
        .ok { email := some "c@d.e", invoiceId := some "B" })
    ∧ repairSendInvoice envObjId none [] [] { email := some "c@d.e" } =
        .error "No invoices found to send." := by
  refine ⟨?_, ?_, ?_⟩
  · exact send_invoice_email_and_default_resolution.1 envObjId "bob@example.com" []
      (by decide)
  · exact (send_invoice_email_and_default_resolution.2.2.2.1 envObjId none [] [invA, invB]
      "u" { email := some "c@d.e" } invB [invA] rfl rfl rfl (by decide)).1
  · exact send_invoice_email_and_default_resolution.2.2.2.2 envObjId none []
      { email := some "c@d.e" } rfl rfl rfl

end EvaAI
